import Mathlib

/-!
Verification development for the grainery plugin subsystem
(src/src-tauri/src/plugins/mod.rs).

The Rust code is shallowly embedded: pure functions become Lean
functions; effectful command handlers become functions parameterised
by an environment record (the outcome of each external call: zip
parsing, filesystem reads, store load, network responses, ...) that
return a result together with an explicit list of performed effects.
Machine integers are modelled as Nat with explicit reductions modulo
2^32 where overflow matters (SHA-256).  Rust strings are modelled as
Lean String / List Char; the Rust `str::trim` (Unicode whitespace) is
modelled by `str_trim` (ASCII whitespace; the program's string
constants are ASCII).
-/

/-! ## Generic comparator framework

Rust's `Ord` produces `Ordering`; composite comparators in the code
use lexicographic composition (`Ordering::then`).  `LawfulCmp`
packages the properties (antisymmetric swap, transitivity of `lt`,
and equality reflection) that the semver precedence comparator
satisfies; they are what the sort reasoning needs.
-/

/-- Comparator laws: `cmp` mirrors a linear order and `.eq` implies equality. -/
structure LawfulCmp {α : Type} (cmp : α → α → Ordering) : Prop where
  symm : ∀ a b, cmp a b = (cmp b a).swap
  lt_trans : ∀ {a b c}, cmp a b = .lt → cmp b c = .lt → cmp a c = .lt
  eq_imp : ∀ {a b}, cmp a b = .eq → a = b

/-- `le` relation induced by a comparator, as Rust's sort uses it. -/
def cmpLe {α : Type} (cmp : α → α → Ordering) (a b : α) : Bool :=
  cmp a b ≠ Ordering.gt

/-- Comparator on Nat (Rust `u64::cmp`). -/
def cmpNat (a b : Nat) : Ordering :=
  if a < b then .lt else if b < a then .gt else .eq

/-- Comparator on characters by code point (Rust `char`/byte order; all
comparisons in the program are on ASCII strings, where byte order and
code-point order agree). -/
def cmpChar (a b : Char) : Ordering := cmpNat a.toNat b.toNat

/-- Lexicographic comparator on lists (Rust slice / `str` `Ord`). -/
def cmpLexList {α : Type} (cmp : α → α → Ordering) : List α → List α → Ordering
  | [], [] => .eq
  | [], _ :: _ => .lt
  | _ :: _, [] => .gt
  | a :: as, b :: bs => (cmp a b).then (cmpLexList cmp as bs)

/-! ## Stable insertion sort

Rust's `Vec::sort_by` is a stable sort; when the comparator is a
total order every stable sort produces the same output (for
comparators that are not total orders Rust documents the resulting
order as unspecified).  We model it by a stable insertion sort: each
element is inserted after all already-placed elements that compare
less-or-equal to it. -/

def insertSorted {α : Type} (le : α → α → Bool) (x : α) : List α → List α
  | [] => [x]
  | y :: ys => if le y x then y :: insertSorted le x ys else x :: y :: ys

def sortStable {α : Type} (le : α → α → Bool) (l : List α) : List α :=
  l.foldl (fun acc x => insertSorted le x acc) []

/-! ## String helpers (models of the Rust `str`/`char` methods used) -/

/-- Rust `char::is_ascii_alphanumeric`. -/
def is_ascii_alphanumeric (c : Char) : Bool :=
  ('A' ≤ c && c ≤ 'Z') || ('a' ≤ c && c ≤ 'z') || ('0' ≤ c && c ≤ '9')

/-- Rust `u8::to_ascii_lowercase`, on characters (ASCII range). -/
def ascii_to_lower (c : Char) : Char :=
  if 'A' ≤ c && c ≤ 'Z' then Char.ofNat (c.toNat + 32) else c

/-- Rust `str::eq_ignore_ascii_case`. -/
def eq_ignore_ascii_case (a b : String) : Bool :=
  a.toList.map ascii_to_lower == b.toList.map ascii_to_lower

/-- Does `needle` occur as a contiguous substring of the list? -/
def hasSubList (needle : List Char) : List Char → Bool
  | [] => needle.isEmpty
  | c :: rest => needle.isPrefixOf (c :: rest) || hasSubList needle rest

/-- Rust `str::contains` with a literal pattern. -/
def str_contains (s pat : String) : Bool := hasSubList pat.toList s.toList

/-- Rust `str::trim` (the program only trims ASCII text; whitespace
here is the ASCII whitespace `Char.isWhitespace` recognises). -/
def str_trim (s : String) : String :=
  List.asString
    (((s.toList.dropWhile Char.isWhitespace).reverse.dropWhile
        Char.isWhitespace).reverse)

/-- Rust `str::strip_prefix`, on character lists. -/
def stripLead : List Char → List Char → Option (List Char)
  | [], s => some s
  | _ :: _, [] => none
  | p :: ps, c :: cs => if p = c then stripLead ps cs else none

/-- Rust `str::strip_prefix`. -/
def strip_lead (p s : String) : Option String :=
  (stripLead p.toList s.toList).map List.asString

/-- Rust `Path::is_absolute` for Unix-style paths: the path has a root,
i.e. begins with a path separator. -/
def path_is_absolute (s : String) : Bool :=
  match s.toList with
  | [] => false
  | c :: _ => c = '/'

/-! ## Early-return loops

A Rust `for` loop whose body either `return Err(..)`s or continues is
modelled by `checkAll`. -/

def checkAll {α : Type} (f : α → Except String Unit) : List α → Except String Unit
  | [] => .ok ()
  | x :: xs =>
    match f x with
    | .error e => .error e
    | .ok () => checkAll f xs

/-! ## SHA-256

`compute_sha256_hex` (mod.rs:378) feeds the archive bytes to the
`sha2` crate and formats the digest as lowercase hex.  The algorithm
(FIPS 180-4) is implemented here over Nat with explicit reduction
modulo 2^32; bytes are Nats below 256. -/

def add32 (a b : Nat) : Nat := (a + b) % 4294967296

def rotr32 (n x : Nat) : Nat :=
  ((x >>> n) ||| (x <<< (32 - n))) % 4294967296

def not32 (x : Nat) : Nat := 4294967295 - x % 4294967296

def shaCh (x y z : Nat) : Nat := (x &&& y) ^^^ (not32 x &&& z)

def shaMaj (x y z : Nat) : Nat := (x &&& y) ^^^ (x &&& z) ^^^ (y &&& z)

def shaS0 (x : Nat) : Nat := rotr32 2 x ^^^ rotr32 13 x ^^^ rotr32 22 x

def shaS1 (x : Nat) : Nat := rotr32 6 x ^^^ rotr32 11 x ^^^ rotr32 25 x

def shas0 (x : Nat) : Nat := rotr32 7 x ^^^ rotr32 18 x ^^^ (x >>> 3)

def shas1 (x : Nat) : Nat := rotr32 17 x ^^^ rotr32 19 x ^^^ (x >>> 10)

def shaK : List Nat :=
  [1116352408, 1899447441, 3049323471, 3921009573, 961987163,
   1508970993, 2453635748, 2870763221, 3624381080, 310598401,
   607225278, 1426881987, 1925078388, 2162078206, 2614888103,
   3248222580, 3835390401, 4022224774, 264347078, 604807628,
   770255983, 1249150122, 1555081692, 1996064986, 2554220882,
   2821834349, 2952996808, 3210313671, 3336571891, 3584528711,
   113926993, 338241895, 666307205, 773529912, 1294757372,
   1396182291, 1695183700, 1986661051, 2177026350, 2456956037,
   2730485921, 2820302411, 3259730800, 3345764771, 3516065817,
   3600352804, 4094571909, 275423344, 430227734, 506948616,
   659060556, 883997877, 958139571, 1322822218, 1537002063,
   1747873779, 1955562222, 2024104815, 2227730452, 2361852424,
   2428436474, 2756734187, 3204031479, 3329325298]

def shaH0 : List Nat :=
  [1779033703, 3144134277, 1013904242, 2773480762,
   1359893119, 2600822924, 528734635, 1541459225]

/-- Big-endian 8-byte encoding of the bit length. -/
def be64 (n : Nat) : List Nat :=
  [(n >>> 56) % 256, (n >>> 48) % 256, (n >>> 40) % 256, (n >>> 32) % 256,
   (n >>> 24) % 256, (n >>> 16) % 256, (n >>> 8) % 256, n % 256]

def shaPad (msg : List Nat) : List Nat :=
  let k := (119 - msg.length % 64) % 64
  msg ++ [128] ++ List.replicate k 0 ++ be64 (msg.length * 8)

/-- Pack bytes (big-endian, 4 at a time) into 32-bit words. -/
def bytesToWords : List Nat → List Nat
  | b0 :: b1 :: b2 :: b3 :: rest =>
    ((b0 % 256) * 16777216 + (b1 % 256) * 65536 + (b2 % 256) * 256 + b3 % 256)
      :: bytesToWords rest
  | _ => []

/-- Extend 16 words to the 64-word message schedule. -/
def shaSchedule (w16 : List Nat) : List Nat :=
  (List.range 64).foldl
    (fun w i =>
      if i < 16 then w ++ [w16.getD i 0]
      else
        w ++ [add32 (add32 (shas1 (w.getD (i - 2) 0)) (w.getD (i - 7) 0))
                (add32 (shas0 (w.getD (i - 15) 0)) (w.getD (i - 16) 0))])
    []

def shaCompress (hs : List Nat) (chunk : List Nat) : List Nat :=
  let ws := shaSchedule (bytesToWords chunk)
  let st :=
    (List.range 64).foldl
      (fun st i =>
        match st with
        | (a, b, c, d, e, f, g, h) =>
          let t1 := add32 h (add32 (shaS1 e)
            (add32 (shaCh e f g) (add32 (shaK.getD i 0) (ws.getD i 0))))
          let t2 := add32 (shaS0 a) (shaMaj a b c)
          (add32 t1 t2, a, b, c, add32 d t1, e, f, g))
      (hs.getD 0 0, hs.getD 1 0, hs.getD 2 0, hs.getD 3 0,
       hs.getD 4 0, hs.getD 5 0, hs.getD 6 0, hs.getD 7 0)
  match st with
  | (a, b, c, d, e, f, g, h) =>
    [add32 (hs.getD 0 0) a, add32 (hs.getD 1 0) b, add32 (hs.getD 2 0) c,
     add32 (hs.getD 3 0) d, add32 (hs.getD 4 0) e, add32 (hs.getD 5 0) f,
     add32 (hs.getD 6 0) g, add32 (hs.getD 7 0) h]

def chunks64Aux : Nat → List Nat → List (List Nat)
  | 0, _ => []
  | _, [] => []
  | fuel + 1, c :: cs => (c :: cs).take 64 :: chunks64Aux fuel ((c :: cs).drop 64)

/-- Split into 64-byte blocks (fuel-based structural recursion so that
the kernel can evaluate it; the fuel `l.length` always suffices). -/
def chunks64 (l : List Nat) : List (List Nat) := chunks64Aux l.length l

def sha256Words (msg : List Nat) : List Nat :=
  (chunks64 (shaPad msg)).foldl shaCompress shaH0

def hexDigitChar (n : Nat) : Char :=
  "0123456789abcdef".toList.getD n '0'

def wordToHex (w : Nat) : List Char :=
  [hexDigitChar ((w >>> 28) % 16), hexDigitChar ((w >>> 24) % 16),
   hexDigitChar ((w >>> 20) % 16), hexDigitChar ((w >>> 16) % 16),
   hexDigitChar ((w >>> 12) % 16), hexDigitChar ((w >>> 8) % 16),
   hexDigitChar ((w >>> 4) % 16), hexDigitChar (w % 16)]

/-- `compute_sha256_hex` (mod.rs:378-382): SHA-256 digest of the byte
buffer, formatted `{:x}` (lowercase hex). -/
def compute_sha256_hex (bytes : List Nat) : String :=
  List.asString ((sha256Words bytes).foldl (fun acc w => acc ++ wordToHex w) [])

/-! ## Strict semver (the `semver` crate as used by the program)

`Version::parse` accepts `major.minor.patch[-pre][+build]` with
numeric components free of leading zeros and prerelease/build
identifiers over `[0-9A-Za-z-]` (numeric prerelease identifiers also
free of leading zeros).  `Version::cmp` orders by major, minor,
patch, then prerelease precedence (absent prerelease ranks highest;
numeric identifiers below alphanumeric ones, numeric compared as
numbers, alphanumeric bytewise), with build metadata as a final
tie-break.  Numeric components are Nat (the crate errors on u64
overflow; versions that large do not occur in the claims). -/

structure SemVer where
  major : Nat
  minor : Nat
  patch : Nat
  pre : List (List Char)
  build : List (List Char)
  deriving DecidableEq, Repr

def isSemIdentChar (c : Char) : Bool := is_ascii_alphanumeric c || c = '-'

def natOfDigits (ds : List Char) : Nat :=
  ds.foldl (fun a c => a * 10 + (c.toNat - 48)) 0

/-- Parse a numeric component: digits, nonempty, no leading zero. -/
def parseNumPart (cs : List Char) : Option (Nat × List Char) :=
  let digits := cs.takeWhile Char.isDigit
  let rest := cs.dropWhile Char.isDigit
  match digits with
  | [] => none
  | d :: ds => if d = '0' && !ds.isEmpty then none else some (natOfDigits (d :: ds), rest)

/-- One prerelease/build identifier: nonempty run of `[0-9A-Za-z-]`. -/
def parseSemIdent (cs : List Char) : Option (List Char × List Char) :=
  match cs.takeWhile isSemIdentChar with
  | [] => none
  | d :: ds => some (d :: ds, cs.dropWhile isSemIdentChar)

/-- Numeric prerelease identifiers must not have leading zeros. -/
def preIdentOk (id : List Char) : Bool :=
  !(id.all Char.isDigit && decide (1 < id.length) && id.head? == some '0')

/-- Dot-separated identifier list (fuel-based for kernel evaluation). -/
def parseIdents (check : List Char → Bool) : Nat → List Char →
    Option (List (List Char) × List Char)
  | 0, _ => none
  | fuel + 1, cs =>
    match parseSemIdent cs with
    | none => none
    | some (id, rest) =>
      if !check id then none
      else
        match rest with
        | '.' :: rest2 =>
          match parseIdents check fuel rest2 with
          | none => none
          | some (ids, rem) => some (id :: ids, rem)
        | _ => some ([id], rest)

def semverParseTail (pre build : List (List Char)) : SemVer → Option SemVer :=
  fun v => some { v with pre := pre, build := build }

/-- `semver::Version::parse`. -/
def semverParse (s : String) : Option SemVer :=
  let cs := s.toList
  match parseNumPart cs with
  | none => none
  | some (major, r1) =>
    match r1 with
    | '.' :: r2 =>
      match parseNumPart r2 with
      | none => none
      | some (minor, r3) =>
        match r3 with
        | '.' :: r4 =>
          match parseNumPart r4 with
          | none => none
          | some (patch, r5) =>
            match r5 with
            | [] => some ⟨major, minor, patch, [], []⟩
            | '-' :: r6 =>
              match parseIdents preIdentOk (r6.length + 1) r6 with
              | none => none
              | some (pre, rem) =>
                match rem with
                | [] => some ⟨major, minor, patch, pre, []⟩
                | '+' :: r7 =>
                  match parseIdents (fun _ => true) (r7.length + 1) r7 with
                  | some (build, []) => some ⟨major, minor, patch, pre, build⟩
                  | _ => none
                | _ => none
            | '+' :: r6 =>
              match parseIdents (fun _ => true) (r6.length + 1) r6 with
              | some (build, []) => some ⟨major, minor, patch, [], build⟩
              | _ => none
            | _ => none
        | _ => none
    | _ => none

/-- Prerelease identifier precedence: numeric below alphanumeric,
numeric by value (length-then-lex is value order absent leading
zeros), alphanumeric bytewise. -/
def cmpIdentPre (a b : List Char) : Ordering :=
  match a.all Char.isDigit, b.all Char.isDigit with
  | true, true => (cmpNat a.length b.length).then (cmpLexList cmpChar a b)
  | true, false => .lt
  | false, true => .gt
  | false, false => cmpLexList cmpChar a b

def stripZeros (a : List Char) : List Char := a.dropWhile (fun c => c = '0')

/-- Build-metadata identifier order (`0 < 00 < 1 < 01 < 001 < 2`):
numeric-by-value first, leading-zero count as tie-break. -/
def cmpIdentBuild (a b : List Char) : Ordering :=
  match a.all Char.isDigit, b.all Char.isDigit with
  | true, true =>
    ((cmpNat (stripZeros a).length (stripZeros b).length).then
        (cmpLexList cmpChar (stripZeros a) (stripZeros b))).then
      (cmpNat a.length b.length)
  | true, false => .lt
  | false, true => .gt
  | false, false => cmpLexList cmpChar a b

/-- Prerelease precedence: absent (empty) prerelease ranks above any
present one. -/
def cmpPre (a b : List (List Char)) : Ordering :=
  match a, b with
  | [], [] => .eq
  | [], _ :: _ => .gt
  | _ :: _, [] => .lt
  | a, b => cmpLexList cmpIdentPre a b

def cmpBuild (a b : List (List Char)) : Ordering := cmpLexList cmpIdentBuild a b

/-- `semver::Version::cmp`. -/
def semverCmp (a b : SemVer) : Ordering :=
  (cmpNat a.major b.major).then
    ((cmpNat a.minor b.minor).then
      ((cmpNat a.patch b.patch).then
        ((cmpPre a.pre b.pre).then (cmpBuild a.build b.build))))

/-! ### Lawfulness of the semver comparator -/

def prodCmp {α β : Type} (cA : α → α → Ordering) (cB : β → β → Ordering)
    (p q : α × β) : Ordering :=
  (cA p.1 q.1).then (cB p.2 q.2)

/-! ## JSON values (`serde_json::Value`) -/

inductive Json where
  | null
  | bool (b : Bool)
  | num (n : Int)
  | str (s : String)
  | arr (items : List Json)
  | obj (fields : List (String × Json))

/-- `Value::get` with a string key: field lookup on objects. -/
def Json.get (v : Json) (key : String) : Option Json :=
  match v with
  | .obj fields => (fields.find? (fun kv => kv.1 == key)).map (fun kv => kv.2)
  | _ => none

/-- `Value::as_str`. -/
def Json.as_str : Json → Option String
  | .str s => some s
  | _ => none

/-! ## Data model (mod.rs:23-248)

The `serde` wire attributes (camelCase renaming, defaults,
`skip_serializing_if`) concern the JSON encoding; the model works
with the decoded values and keeps the Rust field names. -/

structure PluginManifestEngine where
  grainery : String
  plugin_api : String

structure PluginSignature where
  key_id : String
  sha256 : String
  sig : String

structure ContributedCommand where
  id : String
  title : String
  shortcut : Option String

structure ContributedExporter where
  id : String
  title : String
  extension : String
  mime_type : Option String

structure ContributedImporter where
  id : String
  title : String
  extensions : List String

structure ContributedStatusBadge where
  id : String
  label : String
  priority : Option Int

structure ContributedInlineAnnotationProvider where
  id : String
  title : Option String
  priority : Option Int

structure ContributedUiControl where
  id : String
  mount : String
  kind : String
  label : String
  icon : String
  priority : Option Int
  tooltip : Option String
  group : Option String
  hotkey_hint : Option String
  action : Option Json
  when : Option String

structure ContributedUiPanel where
  id : String
  title : String
  icon : Option String
  default_width : Option Int
  min_width : Option Int
  max_width : Option Int
  priority : Option Int
  content : Option Json
  when : Option String

structure ContributedTransform where
  id : String
  hook : String
  priority : Option Int

structure PluginContributions where
  commands : List ContributedCommand
  exporters : List ContributedExporter
  importers : List ContributedImporter
  status_badges : List ContributedStatusBadge
  inline_annotation_providers : List ContributedInlineAnnotationProvider
  ui_controls : List ContributedUiControl
  ui_panels : List ContributedUiPanel
  transforms : List ContributedTransform

structure PluginManifest where
  schema_version : Nat
  id : String
  name : String
  version : String
  description : String
  engine : PluginManifestEngine
  entry : String
  permissions : List String
  optional_permissions : List String
  network_allowlist : List String
  activation_events : List String
  contributes : PluginContributions
  enabled_api_proposals : List String
  signature : Option PluginSignature

structure PluginPermissionGrant where
  permission : String
  granted : Bool
  granted_at : Option String

structure InstalledPlugin where
  id : String
  name : String
  version : String
  description : String
  enabled : Bool
  trust : String
  install_source : String
  installed_at : String
  updated_at : String
  entry_path : String
  entry_source : Option String
  crash_count : Nat
  network_allowlist : List String
  manifest : PluginManifest
  granted_permissions : List PluginPermissionGrant

structure PluginRegistryEntry where
  id : String
  name : String
  version : String
  description : String
  manifest : PluginManifest
  download_url : String
  sha256 : String
  signature_key_id : String
  signature : String

structure PluginLockRecord where
  plugin_id : String
  version : String
  sha256 : String
  signature_verified : Bool
  trust : String
  enabled : Bool
  granted_permissions : List PluginPermissionGrant
  updated_at : String

structure PluginStore where
  installed_plugins : List InstalledPlugin
  lock_records : List PluginLockRecord

/-! ## Pure helpers (mod.rs:254-330) -/

/-- `sanitize_plugin_id` (mod.rs:254-265). -/
def sanitize_plugin_id (plugin_id : String) : String :=
  List.asString (plugin_id.toList.map (fun c =>
    if is_ascii_alphanumeric c || c = '.' || c = '-' || c = '_' then c else '_'))

/-- `validate_plugin_id` (mod.rs:267-272). -/
def validate_plugin_id (plugin_id : String) : Bool :=
  !plugin_id.isEmpty &&
    plugin_id.toList.all (fun c =>
      is_ascii_alphanumeric c || c = '.' || c = '-' || c = '_')

/-- `is_optional_permission` (mod.rs:274-283). -/
def is_optional_permission (permission : String) : Bool :=
  permission = "fs:pick-read" || permission = "fs:pick-write" ||
    permission = "network:https" || permission = "ui:mount" ||
    permission = "editor:annotations"

/-- `is_core_permission` (mod.rs:285-290). -/
def is_core_permission (permission : String) : Bool :=
  permission = "document:read" || permission = "document:write" ||
    permission = "editor:commands" || permission = "export:register"

/-- `validate_local_contribution_id` (mod.rs:292-298). -/
def validate_local_contribution_id (id : String) : Bool :=
  !id.isEmpty && !id.toList.contains ':' &&
    id.toList.all (fun c =>
      is_ascii_alphanumeric c || c = '.' || c = '-' || c = '_')

/-- `is_supported_transform_hook` (mod.rs:300-302). -/
def is_supported_transform_hook (hook : String) : Bool :=
  hook = "post-open" || hook = "pre-save" || hook = "pre-export"

/-- `is_valid_activation_event` (mod.rs:304-330); the loop over the
seven `PREFIXES` is unrolled in order. -/
def is_valid_activation_event (event : String) : Bool :=
  if event = "onStartup" then true
  else
    match strip_lead "onCommand:" event with
    | some local_id => validate_local_contribution_id local_id
    | none =>
    match strip_lead "onExporter:" event with
    | some local_id => validate_local_contribution_id local_id
    | none =>
    match strip_lead "onImporter:" event with
    | some local_id => validate_local_contribution_id local_id
    | none =>
    match strip_lead "onUIControl:" event with
    | some local_id => validate_local_contribution_id local_id
    | none =>
    match strip_lead "onUIPanel:" event with
    | some local_id => validate_local_contribution_id local_id
    | none =>
    match strip_lead "onStatusBadge:" event with
    | some local_id => validate_local_contribution_id local_id
    | none =>
    match strip_lead "onInlineAnnotations:" event with
    | some local_id => validate_local_contribution_id local_id
    | none =>
    match strip_lead "onTransform:" event with
    | some hook => is_supported_transform_hook hook
    | none => false

/-! ## Manifest validation (mod.rs:398-641)

Compile-time constants (mod.rs:20-21). -/

def PLUGIN_API_VERSION : String := "1.2.0"

def REQUIRED_PLUGIN_API_RANGE : String := "^1.2.0"

/-- Renders a `Version` back to text (`Display` for `semver::Version`). -/
def semverToString (v : SemVer) : String :=
  toString v.major ++ "." ++ toString v.minor ++ "." ++ toString v.patch ++
    (if v.pre.isEmpty then "" else
      "-" ++ String.intercalate "." (v.pre.map List.asString)) ++
    (if v.build.isEmpty then "" else
      "+" ++ String.intercalate "." (v.build.map List.asString))

/-- The embedding treats `semver::VersionReq` as an oracle: the
version-requirement grammar is external library behaviour that no
claim depends on.  `app_version` is the compile-time
`CARGO_PKG_VERSION` string; `req_parse` gives `VersionReq::parse`'s
outcome on a range string, and `req_matches` the result of matching a
parsed range (identified by its text) against a version. -/
structure SemverEnv where
  app_version : String
  req_parse : String → Except String Unit
  req_matches : String → SemVer → Bool

def check_schema_version (m : PluginManifest) : Except String Unit :=
  if m.schema_version ≠ 1 then
    .error "Unsupported manifest schemaVersion. Expected 1"
  else .ok ()

def check_id (m : PluginManifest) : Except String Unit :=
  if !validate_plugin_id m.id then
    .error "Invalid plugin id. Only [a-zA-Z0-9._-] are allowed"
  else .ok ()

def check_name (m : PluginManifest) : Except String Unit :=
  if str_trim m.name = "" then .error "Plugin name is required" else .ok ()

def check_version (m : PluginManifest) : Except String Unit :=
  match semverParse m.version with
  | none => .error "Plugin version must be valid semver"
  | some _ => .ok ()

/-- Rule 5 of `validate_manifest` (mod.rs:414-420): the two `entry`
checks. -/
def check_entry (entry : String) : Except String Unit :=
  if str_trim entry = "" then .error "Plugin entry path is required"
  else if str_contains entry ".." || path_is_absolute entry then
    .error "Plugin entry path must be a relative path within the archive"
  else .ok ()

/-- Rules 6-7 (mod.rs:422-462): engine range checks. -/
def check_engine (sem : SemverEnv) (m : PluginManifest) : Except String Unit :=
  match semverParse sem.app_version with
  | none => .error "Failed to parse app version"
  | some current =>
  match sem.req_parse m.engine.grainery with
  | .error e => .error ("Invalid engine.grainery version requirement: " ++ e)
  | .ok () =>
  if !sem.req_matches m.engine.grainery current then
    .error ("Plugin engine mismatch. Requires Grainery " ++ m.engine.grainery ++
      ", current version is " ++ semverToString current)
  else
  match semverParse PLUGIN_API_VERSION with
  | none => .error "Failed to parse plugin API version"
  | some plugin_api_version =>
  match sem.req_parse m.engine.plugin_api with
  | .error e => .error ("Invalid engine.pluginApi version requirement: " ++ e)
  | .ok () =>
  match sem.req_parse REQUIRED_PLUGIN_API_RANGE with
  | .error e => .error ("Failed to parse required plugin API range: " ++ e)
  | .ok () =>
  if !sem.req_matches m.engine.plugin_api plugin_api_version then
    .error ("Plugin API mismatch. Requires " ++ m.engine.plugin_api ++
      ", current API version is " ++ semverToString plugin_api_version)
  else if !sem.req_matches REQUIRED_PLUGIN_API_RANGE plugin_api_version then
    .error ("Host plugin API range misconfigured. Expected " ++
      REQUIRED_PLUGIN_API_RANGE ++ ", current API is " ++
      semverToString plugin_api_version)
  else if m.engine.plugin_api ≠ REQUIRED_PLUGIN_API_RANGE then
    .error ("Plugin engine.pluginApi must be exactly " ++
      REQUIRED_PLUGIN_API_RANGE ++ " (found " ++ m.engine.plugin_api ++ ")")
  else .ok ()

def check_core_permission_item (permission : String) : Except String Unit :=
  if !is_core_permission permission then
    .error ("Unknown core permission: " ++ permission)
  else .ok ()

def check_optional_permission_item (permission : String) : Except String Unit :=
  if !is_optional_permission permission then
    .error ("Unknown optional permission: " ++ permission)
  else .ok ()

def check_activation_event_item (event : String) : Except String Unit :=
  if !is_valid_activation_event event then
    .error ("Invalid activation event \x27" ++ event ++ "\x27")
  else .ok ()

def check_command_item (c : ContributedCommand) : Except String Unit :=
  if !validate_local_contribution_id c.id then
    .error ("Invalid command contribution id \x27" ++ c.id ++ "\x27")
  else .ok ()

def check_exporter_item (e : ContributedExporter) : Except String Unit :=
  if !validate_local_contribution_id e.id then
    .error ("Invalid exporter contribution id \x27" ++ e.id ++ "\x27")
  else .ok ()

def check_importer_item (i : ContributedImporter) : Except String Unit :=
  if !validate_local_contribution_id i.id then
    .error ("Invalid importer contribution id \x27" ++ i.id ++ "\x27")
  else .ok ()

def check_status_badge_item (b : ContributedStatusBadge) : Except String Unit :=
  if !validate_local_contribution_id b.id then
    .error ("Invalid status badge contribution id \x27" ++ b.id ++ "\x27")
  else .ok ()

def check_inline_annotation_item (p : ContributedInlineAnnotationProvider) :
    Except String Unit :=
  if !validate_local_contribution_id p.id then
    .error ("Invalid inline annotation provider contribution id \x27" ++ p.id ++ "\x27")
  else .ok ()

def check_ui_control_item (c : ContributedUiControl) : Except String Unit :=
  if !validate_local_contribution_id c.id then
    .error ("Invalid UI control contribution id \x27" ++ c.id ++ "\x27")
  else .ok ()

def check_ui_panel_item (p : ContributedUiPanel) : Except String Unit :=
  if !validate_local_contribution_id p.id then
    .error ("Invalid UI panel contribution id \x27" ++ p.id ++ "\x27")
  else .ok ()

def check_transform_item (t : ContributedTransform) : Except String Unit :=
  if !validate_local_contribution_id t.id then
    .error ("Invalid transform contribution id \x27" ++ t.id ++ "\x27")
  else if !is_supported_transform_hook t.hook then
    .error ("Invalid transform hook \x27" ++ t.hook ++ "\x27 for transform \x27" ++
      t.id ++ "\x27")
  else .ok ()

/-- Rule 13 (mod.rs:544-638): the per-event back-reference check of
the final loop of `validate_manifest`, prefix cases in source order. -/
def check_event_backref (m : PluginManifest) (event : String) : Except String Unit :=
  if event = "onStartup" then .ok ()
  else
    match strip_lead "onCommand:" event with
    | some local_id =>
      if !m.contributes.commands.any (fun item => item.id == local_id) then
        .error ("Activation event \x27" ++ event ++
          "\x27 references missing command contribution")
      else .ok ()
    | none =>
    match strip_lead "onExporter:" event with
    | some local_id =>
      if !m.contributes.exporters.any (fun item => item.id == local_id) then
        .error ("Activation event \x27" ++ event ++
          "\x27 references missing exporter contribution")
      else .ok ()
    | none =>
    match strip_lead "onImporter:" event with
    | some local_id =>
      if !m.contributes.importers.any (fun item => item.id == local_id) then
        .error ("Activation event \x27" ++ event ++
          "\x27 references missing importer contribution")
      else .ok ()
    | none =>
    match strip_lead "onUIControl:" event with
    | some local_id =>
      if !m.contributes.ui_controls.any (fun item => item.id == local_id) then
        .error ("Activation event \x27" ++ event ++
          "\x27 references missing UI control contribution")
      else .ok ()
    | none =>
    match strip_lead "onUIPanel:" event with
    | some local_id =>
      if !m.contributes.ui_panels.any (fun item => item.id == local_id) then
        .error ("Activation event \x27" ++ event ++
          "\x27 references missing UI panel contribution")
      else .ok ()
    | none =>
    match strip_lead "onStatusBadge:" event with
    | some local_id =>
      if !m.contributes.status_badges.any (fun item => item.id == local_id) then
        .error ("Activation event \x27" ++ event ++
          "\x27 references missing status badge contribution")
      else .ok ()
    | none =>
    match strip_lead "onInlineAnnotations:" event with
    | some local_id =>
      if !m.contributes.inline_annotation_providers.any
          (fun item => item.id == local_id) then
        .error ("Activation event \x27" ++ event ++
          "\x27 references missing inline annotation contribution")
      else .ok ()
    | none =>
    match strip_lead "onTransform:" event with
    | some hook =>
      if !m.contributes.transforms.any (fun item => item.hook == hook) then
        .error ("Activation event \x27" ++ event ++
          "\x27 references missing transform hook contribution")
      else .ok ()
    | none => .ok ()

/-- `validate_manifest` (mod.rs:398-641), rules in source order. -/
def validate_manifest (sem : SemverEnv) (m : PluginManifest) : Except String Unit := do
  check_schema_version m
  check_id m
  check_name m
  check_version m
  check_entry m.entry
  check_engine sem m
  checkAll check_core_permission_item m.permissions
  checkAll check_optional_permission_item m.optional_permissions
  if m.activation_events.isEmpty then
    throw "activationEvents must include at least one event"
  checkAll check_activation_event_item m.activation_events
  checkAll check_command_item m.contributes.commands
  checkAll check_exporter_item m.contributes.exporters
  checkAll check_importer_item m.contributes.importers
  checkAll check_status_badge_item m.contributes.status_badges
  checkAll check_inline_annotation_item m.contributes.inline_annotation_providers
  checkAll check_ui_control_item m.contributes.ui_controls
  checkAll check_ui_panel_item m.contributes.ui_panels
  checkAll check_transform_item m.contributes.transforms
  checkAll (check_event_backref m) m.activation_events

/-! ## Grants and permissions (mod.rs:728-766) -/

/-- `normalize_grants` (mod.rs:728-750). -/
def normalize_grants (m : PluginManifest) (grants : List PluginPermissionGrant) :
    List PluginPermissionGrant :=
  m.optional_permissions.map (fun optional =>
    match grants.find? (fun item => item.permission == optional) with
    | some grant =>
      { permission := optional, granted := grant.granted,
        granted_at := grant.granted_at }
    | none => { permission := optional, granted := false, granted_at := none })

/-- `has_permission` (mod.rs:752-766). -/
def has_permission (plugin : InstalledPlugin) (permission : String) : Bool :=
  plugin.manifest.permissions.any (fun item => item == permission) ||
    plugin.granted_permissions.any (fun grant =>
      grant.permission == permission && grant.granted)

/-! ## Effects

Each effectful command handler returns its result paired with the
list of external effects it performed, in order.  `saveStore` carries
the store value written; an entry in the list means the operation was
attempted (its outcome is the corresponding environment field). -/

inductive Effect where
  | loadStore
  | saveStore (store : PluginStore)
  | removeDir (path : String)
  | createDir (path : String)
  | extractTo (path : String)
  | auditAppend (plugin_id operation : String) (payload : Json)
  | httpGet (url : String)

/-- `hydrate_entry_source` (mod.rs:768-776); `read_file` is the
outcome of `fs::read_to_string(..).ok()`. -/
def hydrate_entry_source (read_file : String → Option String)
    (plugin : InstalledPlugin) : InstalledPlugin :=
  if !plugin.enabled then { plugin with entry_source := none }
  else { plugin with entry_source := read_file plugin.entry_path }

/-- The result of `reqwest::Url::parse`: scheme and optional host.
The WHATWG parsing itself is an oracle (`parse_url` below). -/
structure UrlParts where
  scheme : String
  host : Option String

/-- `enforce_network_allowlist` (mod.rs:955-984). -/
def enforce_network_allowlist (parse_url : String → Except String UrlParts)
    (plugin : InstalledPlugin) (url : String) : Except String Unit :=
  match parse_url url with
  | .error e => .error ("Invalid URL \x27" ++ url ++ "\x27: " ++ e)
  | .ok parsed =>
  if parsed.scheme ≠ "https" then
    .error "Only https:// URLs are allowed for plugin network calls"
  else
    match parsed.host with
    | none => .error "URL is missing a host"
    | some host =>
      if plugin.network_allowlist.isEmpty then
        .error "Plugin has an empty network allowlist"
      else if !plugin.network_allowlist.any
          (fun allowed => eq_ignore_ascii_case allowed host) then
        .error ("Host \x27" ++ host ++ "\x27 is not in plugin allowlist (" ++
          String.intercalate ", " plugin.network_allowlist ++ ")")
      else .ok ()

/-- The comparator passed to `matches.sort_by` in
`select_registry_entry` (mod.rs:940-948): semver precedence when both
versions parse, raw string comparison otherwise. -/
def registry_version_cmp (a b : PluginRegistryEntry) : Ordering :=
  match semverParse a.version, semverParse b.version with
  | some left, some right => semverCmp left right
  | _, _ => cmpLexList cmpChar a.version.toList b.version.toList

/-- `select_registry_entry` (mod.rs:911-953).  `sort_by` + `pop` is
modelled as a stable sort followed by `getLast?` (see `sortStable`). -/
def select_registry_entry (entries : List PluginRegistryEntry) (plugin_id : String)
    (version : Option String) : Except String PluginRegistryEntry :=
  let matched := entries.filter (fun entry => entry.id == plugin_id)
  if matched.isEmpty then
    .error ("Plugin \x27" ++ plugin_id ++ "\x27 not found in registry index")
  else
    match version with
    | some version =>
      match matched.find? (fun entry => entry.version == version) with
      | some exact => .ok exact
      | none =>
        .error ("Plugin \x27" ++ plugin_id ++ "\x27 version \x27" ++ version ++
          "\x27 not found in registry index")
    | none =>
      match (sortStable (cmpLe registry_version_cmp) matched).getLast? with
      | some entry => .ok entry
      | none =>
        .error ("No installable version found for plugin \x27" ++ plugin_id ++ "\x27")

/-- The JSON line `append_audit_log` (mod.rs:986-1003) writes. -/
def audit_line (now plugin_id operation : String) (payload : Json) : Json :=
  .obj [("timestamp", .str now), ("pluginId", .str plugin_id),
        ("operation", .str operation), ("payload", payload)]

/-! ## Install pipeline (mod.rs:790-873, 1022-1093) -/

/-- Environment for `install_plugin_from_zip_bytes`: the outcome of
each external call it makes, in program order.  `zip_parse` is the
result of `ZipArchive::new` on the byte buffer (the code re-opens the
same buffer for extraction; parsing is deterministic, so one field
serves both sites). -/
structure InstallEnv where
  sem : SemverEnv
  zip_parse : Except String Unit
  read_manifest : Except String PluginManifest
  install_base : Except String String
  remove_dir : Except String Unit
  create_dir : Except String Unit
  extract : Except String Unit
  entry_exists : Bool
  read_entry : Except String String
  load_store : Except String PluginStore
  save_store : Except String Unit
  now : String

/-- `install_plugin_from_zip_bytes` (mod.rs:790-873). -/
def install_plugin_from_zip_bytes (env : InstallEnv) (zip_bytes : List Nat)
    (install_source trust : String) (signature_verified : Bool) :
    Except String InstalledPlugin × List Effect :=
  match env.zip_parse with
  | .error e => (.error ("Failed to parse plugin archive: " ++ e), [])
  | .ok () =>
  match env.read_manifest with
  | .error e => (.error e, [])
  | .ok manifest =>
  match validate_manifest env.sem manifest with
  | .error e => (.error e, [])
  | .ok () =>
  match env.install_base with
  | .error e => (.error e, [])
  | .ok install_base =>
  let plugin_dir := install_base ++ "/" ++ sanitize_plugin_id manifest.id
  let version_dir := plugin_dir ++ "/" ++ manifest.version
  match env.remove_dir with
  | .error e =>
    (.error ("Failed to remove plugin directory: " ++ e), [.removeDir plugin_dir])
  | .ok () =>
  match env.create_dir with
  | .error e =>
    (.error ("Failed to create plugin version directory: " ++ e),
     [.removeDir plugin_dir, .createDir version_dir])
  | .ok () =>
  match env.zip_parse with
  | .error e =>
    (.error ("Failed to re-open plugin archive: " ++ e),
     [.removeDir plugin_dir, .createDir version_dir])
  | .ok () =>
  match env.extract with
  | .error e =>
    (.error e,
     [.removeDir plugin_dir, .createDir version_dir, .extractTo version_dir])
  | .ok () =>
  let final_entry_path := version_dir ++ "/" ++ manifest.entry
  if !env.entry_exists then
    (.error ("Plugin entry file does not exist after extraction: " ++ manifest.entry),
     [.removeDir plugin_dir, .createDir version_dir, .extractTo version_dir])
  else
  match env.read_entry with
  | .error e =>
    (.error ("Failed to read extracted plugin entry file: " ++ e),
     [.removeDir plugin_dir, .createDir version_dir, .extractTo version_dir])
  | .ok entry_source =>
  match env.load_store with
  | .error e =>
    (.error e,
     [.removeDir plugin_dir, .createDir version_dir, .extractTo version_dir,
      .loadStore])
  | .ok store =>
  let now := env.now
  let installed_plugin : InstalledPlugin :=
    { id := manifest.id, name := manifest.name, version := manifest.version,
      description := manifest.description, enabled := true, trust := trust,
      install_source := install_source, installed_at := now, updated_at := now,
      entry_path := final_entry_path, entry_source := some entry_source,
      crash_count := 0, network_allowlist := manifest.network_allowlist,
      manifest := manifest,
      granted_permissions := normalize_grants manifest [] }
  let lock : PluginLockRecord :=
    { plugin_id := manifest.id, version := manifest.version,
      sha256 := compute_sha256_hex zip_bytes,
      signature_verified := signature_verified, trust := trust, enabled := true,
      granted_permissions := installed_plugin.granted_permissions,
      updated_at := now }
  let new_store : PluginStore :=
    { installed_plugins :=
        store.installed_plugins.filter (fun p => p.id != manifest.id)
          ++ [installed_plugin],
      lock_records :=
        store.lock_records.filter (fun r => r.plugin_id != manifest.id) ++ [lock] }
  match env.save_store with
  | .error e =>
    (.error e,
     [.removeDir plugin_dir, .createDir version_dir, .extractTo version_dir,
      .loadStore, .saveStore new_store])
  | .ok () =>
    (.ok installed_plugin,
     [.removeDir plugin_dir, .createDir version_dir, .extractTo version_dir,
      .loadStore, .saveStore new_store])

/-- `plugin_install_from_file` (mod.rs:1022-1028); `file_bytes` is the
outcome of `fs::read(path)`. -/
def plugin_install_from_file (env : InstallEnv) (path : String)
    (file_bytes : Except String (List Nat)) :
    Except String InstalledPlugin × List Effect :=
  match file_bytes with
  | .error e =>
    (.error ("Failed to read plugin archive \x27" ++ path ++ "\x27: " ++ e), [])
  | .ok zip_bytes =>
    install_plugin_from_zip_bytes env zip_bytes "sideload" "unverified" false

/-- Environment for `plugin_install_from_registry`: `fetch` is the
outcome of `fetch_registry_entries` (GET + status check + JSON/shape
parsing), `verify_signature` that of `verify_registry_signature`
(base64/Ed25519, external crates), `download` the archive GET
(send + status check + body buffering). -/
structure RegistryEnv where
  fetch : Except String (List PluginRegistryEntry)
  verify_signature : Except String Unit
  download : Except String (List Nat)
  inst : InstallEnv

/-- `plugin_install_from_registry` (mod.rs:1038-1093). -/
def plugin_install_from_registry (env : RegistryEnv) (registry_url plugin_id : String)
    (version : Option String) : Except String InstalledPlugin × List Effect :=
  let r :=
    match env.fetch with
    | .error e => ((.error e : Except String InstalledPlugin), ([] : List Effect))
    | .ok entries =>
    match select_registry_entry entries plugin_id version with
    | .error e => (.error e, [])
    | .ok selected =>
    if selected.manifest.id ≠ selected.id then
      (.error "Registry manifest id does not match registry entry id", [])
    else if selected.manifest.version ≠ selected.version then
      (.error "Registry manifest version does not match registry entry version", [])
    else
    match validate_manifest env.inst.sem selected.manifest with
    | .error e => (.error e, [])
    | .ok () =>
    match env.verify_signature with
    | .error e => (.error e, [])
    | .ok () =>
    match env.download with
    | .error e => (.error e, [.httpGet selected.download_url])
    | .ok zip_bytes =>
    let computed_sha256 := compute_sha256_hex zip_bytes
    if !eq_ignore_ascii_case computed_sha256 selected.sha256 then
      (.error ("SHA256 mismatch for downloaded plugin archive. Expected " ++
        selected.sha256 ++ ", got " ++ computed_sha256),
       [.httpGet selected.download_url])
    else
      let inner := install_plugin_from_zip_bytes env.inst zip_bytes
        "registry" "verified" true
      (inner.1, .httpGet selected.download_url :: inner.2)
  (r.1, .httpGet registry_url :: r.2)

/-! ## Uninstall, list, host call (mod.rs:1005-1014, 1096-1117, 1207-1293) -/

structure UninstallEnv where
  load_store : Except String PluginStore
  install_base : Except String String
  remove_dir : Except String Unit
  save_store : Except String Unit

/-- `plugin_uninstall` (mod.rs:1096-1117). -/
def plugin_uninstall (env : UninstallEnv) (plugin_id : String) :
    Except String Unit × List Effect :=
  if !validate_plugin_id plugin_id then (.error "Invalid plugin id", [])
  else
  match env.load_store with
  | .error e => (.error e, [.loadStore])
  | .ok store =>
  let before_count := store.installed_plugins.length
  let kept := store.installed_plugins.filter (fun p => p.id != plugin_id)
  let kept_locks := store.lock_records.filter (fun r => r.plugin_id != plugin_id)
  if before_count = kept.length then
    (.error ("Plugin \x27" ++ plugin_id ++ "\x27 is not installed"), [.loadStore])
  else
  match env.install_base with
  | .error e => (.error e, [.loadStore])
  | .ok base =>
  match env.remove_dir with
  | .error e =>
    (.error ("Failed to remove plugin directory: " ++ e),
     [.loadStore, .removeDir (base ++ "/" ++ sanitize_plugin_id plugin_id)])
  | .ok () =>
  match env.save_store with
  | .error e =>
    (.error e,
     [.loadStore, .removeDir (base ++ "/" ++ sanitize_plugin_id plugin_id),
      .saveStore { installed_plugins := kept, lock_records := kept_locks }])
  | .ok () =>
    (.ok (),
     [.loadStore, .removeDir (base ++ "/" ++ sanitize_plugin_id plugin_id),
      .saveStore { installed_plugins := kept, lock_records := kept_locks }])

structure ListEnv where
  load_store : Except String PluginStore
  read_file : String → Option String

/-- `plugin_list_installed` (mod.rs:1005-1014). -/
def plugin_list_installed (env : ListEnv) :
    Except String (List InstalledPlugin) × List Effect :=
  match env.load_store with
  | .error e => (.error e, [.loadStore])
  | .ok store =>
    (.ok (store.installed_plugins.map (hydrate_entry_source env.read_file)),
     [.loadStore])

/-- The observable pieces of a `reqwest::Response`. -/
structure HttpResponse where
  is_success : Bool
  status : String
  json_body : Except String Json
  text_body : Except String String

structure HostEnv where
  load_store : Except String PluginStore
  audit : Except String Unit
  parse_url : String → Except String UrlParts
  http : String → Except String HttpResponse

/-- `plugin_host_call` (mod.rs:1207-1293). -/
def plugin_host_call (env : HostEnv) (plugin_id operation : String) (payload : Json) :
    Except String Json × List Effect :=
  match env.load_store with
  | .error e => (.error e, [.loadStore])
  | .ok store =>
  match store.installed_plugins.find? (fun p => p.id == plugin_id) with
  | none =>
    (.error ("Plugin \x27" ++ plugin_id ++ "\x27 is not installed"), [.loadStore])
  | some plugin =>
  if !plugin.enabled then
    (.error ("Plugin \x27" ++ plugin_id ++ "\x27 is disabled"), [.loadStore])
  else
  let tr0 := [Effect.loadStore, Effect.auditAppend plugin_id operation payload]
  match env.audit with
  | .error e => (.error e, tr0)
  | .ok () =>
  if operation = "network:get_json" then
    if !has_permission plugin "network:https" then
      (.error "Permission denied: network:https", tr0)
    else
    match (payload.get "url").bind Json.as_str with
    | none => (.error "Payload must include string field \x27url\x27", tr0)
    | some url =>
    match enforce_network_allowlist env.parse_url plugin url with
    | .error e => (.error e, tr0)
    | .ok () =>
    match env.http url with
    | .error e => (.error ("Network request failed: " ++ e), tr0 ++ [.httpGet url])
    | .ok response =>
    if !response.is_success then
      (.error ("HTTP request failed with status " ++ response.status),
       tr0 ++ [.httpGet url])
    else
      match response.json_body with
      | .error e =>
        (.error ("Failed to parse JSON response: " ++ e), tr0 ++ [.httpGet url])
      | .ok v => (.ok v, tr0 ++ [.httpGet url])
  else if operation = "network:get_text" then
    if !has_permission plugin "network:https" then
      (.error "Permission denied: network:https", tr0)
    else
    match (payload.get "url").bind Json.as_str with
    | none => (.error "Payload must include string field \x27url\x27", tr0)
    | some url =>
    match enforce_network_allowlist env.parse_url plugin url with
    | .error e => (.error e, tr0)
    | .ok () =>
    match env.http url with
    | .error e => (.error ("Network request failed: " ++ e), tr0 ++ [.httpGet url])
    | .ok response =>
    if !response.is_success then
      (.error ("HTTP request failed with status " ++ response.status),
       tr0 ++ [.httpGet url])
    else
      match response.text_body with
      | .error e =>
        (.error ("Failed to read text response: " ++ e), tr0 ++ [.httpGet url])
      | .ok body => (.ok (.obj [("text", .str body)]), tr0 ++ [.httpGet url])
  else if operation = "audit:log" then
    (.ok (.obj [("ok", .bool true)]), tr0)
  else if operation = "document:get" ∨ operation = "document:replace" then
    (.error "Document operations must be brokered by the frontend host, not plugin_host_call",
     tr0)
  else
    (.error ("Unsupported host operation \x27" ++ operation ++ "\x27"), tr0)

/-! ## Concrete values used by the witnesses -/

def egSemOk : SemverEnv :=
  { app_version := "0.1.0", req_parse := fun _ => .ok (),
    req_matches := fun _ _ => true }

def egContribNone : PluginContributions :=
  { commands := [], exporters := [], importers := [], status_badges := [],
    inline_annotation_providers := [], ui_controls := [], ui_panels := [],
    transforms := [] }

def egManifestOk : PluginManifest :=
  { schema_version := 1, id := "com.acme.hi", name := "Hi", version := "1.0.0",
    description := "", engine := { grainery := "*", plugin_api := "^1.2.0" },
    entry := "main.js", permissions := ["document:read"],
    optional_permissions := ["network:https"],
    network_allowlist := ["api.example.com"], activation_events := ["onStartup"],
    contributes := egContribNone, enabled_api_proposals := [], signature := none }

def egManifestC3 : PluginManifest := { egManifestOk with entry := "a..b" }

def egManifestFull : PluginManifest :=
  { egManifestOk with
    activation_events :=
      ["onStartup", "onCommand:hello", "onTransform:pre-save", "onUIPanel:panel1"],
    contributes :=
      { egContribNone with
        commands := [{ id := "hello", title := "Hello", shortcut := none }],
        ui_panels := [{ id := "panel1", title := "P", icon := none,
                        default_width := none, min_width := none,
                        max_width := none, priority := none, content := none,
                        when := none }],
        transforms := [{ id := "t1", hook := "pre-save", priority := none }] } }

def egPlugin : InstalledPlugin :=
  { id := "com.acme.hi", name := "Hi", version := "1.0.0", description := "",
    enabled := true, trust := "unverified", install_source := "sideload",
    installed_at := "T", updated_at := "T",
    entry_path := "/base/com.acme.hi/1.0.0/main.js", entry_source := none,
    crash_count := 0, network_allowlist := ["api.example.com"],
    manifest := egManifestOk,
    granted_permissions :=
      [{ permission := "network:https", granted := true, granted_at := none }] }

def egStore : PluginStore := { installed_plugins := [egPlugin], lock_records := [] }

def egParseUrl : String → Except String UrlParts := fun url =>
  if url = "https://api.example.com/x" then
    .ok { scheme := "https", host := some "api.example.com" }
  else if url = "https://evil.com/x" then
    .ok { scheme := "https", host := some "evil.com" }
  else if url = "http://api.example.com/x" then
    .ok { scheme := "http", host := some "api.example.com" }
  else .error "relative URL without a base"

def egHttp : String → Except String HttpResponse := fun _ =>
  .ok { is_success := true, status := "200 OK", json_body := .ok .null,
        text_body := .ok "hi" }

def egHostEnv : HostEnv :=
  { load_store := .ok egStore, audit := .ok (), parse_url := egParseUrl,
    http := egHttp }

def egHostEnvAuditFail : HostEnv := { egHostEnv with audit := .error "Failed to write plugin audit log entry: disk full" }

def egPayloadEvil : Json := .obj [("url", .str "https://evil.com/x")]

def egPayloadOk : Json := .obj [("url", .str "https://api.example.com/x")]

def egInstallEnv : InstallEnv :=
  { sem := egSemOk, zip_parse := .ok (), read_manifest := .ok egManifestOk,
    install_base := .ok "/base", remove_dir := .ok (), create_dir := .ok (),
    extract := .ok (), entry_exists := true, read_entry := .ok "X",
    load_store := .ok { installed_plugins := [], lock_records := [] },
    save_store := .ok (), now := "T" }

def egUninstallEnv : UninstallEnv :=
  { load_store := .ok egStore, install_base := .ok "/base",
    remove_dir := .ok (), save_store := .ok () }

def egPluginOff : InstalledPlugin :=
  { egPlugin with id := "com.acme.off", enabled := false }

def egStoreTwo : PluginStore :=
  { installed_plugins := [egPlugin, egPluginOff], lock_records := [] }

def egListEnv : ListEnv :=
  { load_store := .ok egStoreTwo, read_file := fun _ => none }

def egEntryA : PluginRegistryEntry :=
  { id := "p", name := "A", version := "2.0.0", description := "",
    manifest := egManifestOk, download_url := "https://dl/a", sha256 := "aa",
    signature_key_id := "main-2026", signature := "sig" }

def egEntryZ : PluginRegistryEntry :=
  { egEntryA with name := "Z", version := "zzz", download_url := "https://dl/z" }

def egEntryB10 : PluginRegistryEntry :=
  { egEntryA with name := "B", version := "10.0.0", download_url := "https://dl/b" }

def egRegEntry : PluginRegistryEntry :=
  { id := "com.acme.hi", name := "Hi", version := "1.0.0", description := "",
    manifest := egManifestOk, download_url := "https://dl/hi", sha256 := "aa",
    signature_key_id := "main-2026", signature := "sig" }

def egRegistryEnv : RegistryEnv :=
  { fetch := .ok [egRegEntry], verify_signature := .ok (), download := .ok [],
    inst := egInstallEnv }

/-- Split on a separator character (the list-level equivalent of
`str::split`). -/
def splitOnChar (sep : Char) : List Char → List (List Char)
  | [] => [[]]
  | c :: rest =>
    if c = sep then [] :: splitOnChar sep rest
    else
      match splitOnChar sep rest with
      | g :: gs => (c :: g) :: gs
      | [] => [[c]]

/-- The claim's (spec's) reading of rule 5, for comparison with
`check_entry`: a `..` *path segment*, i.e. a `/`-separated component
equal to `..` (the code instead rejects `..` occurring anywhere as a
substring). -/
def spec_has_dotdot_segment (path : String) : Bool :=
  (splitOnChar '/' path.toList).any (fun seg => seg == ['.', '.'])

/-! ## Claims -/

/-- The C7 postcondition: the trace contains a store write whose
content has exactly one installed record and exactly one lock record
for the installed plugin's id, the lock carrying the SHA-256 of the
archive bytes. -/
def one_per_id_post (trace : List Effect) (plugin : InstalledPlugin)
    (zip_bytes : List Nat) : Prop :=
  ∃ store',
    Effect.saveStore store' ∈ trace ∧
    (store'.installed_plugins.filter (fun p => p.id == plugin.id)).length = 1 ∧
    (store'.lock_records.filter (fun r => r.plugin_id == plugin.id)).length = 1 ∧
    ∃ lock, store'.lock_records.filter (fun r => r.plugin_id == plugin.id) = [lock] ∧
      lock.sha256 = compute_sha256_hex zip_bytes ∧ lock.version = plugin.version

def egInstalledOk : InstalledPlugin :=
  { id := "com.acme.hi", name := "Hi", version := "1.0.0", description := "",
    enabled := true, trust := "unverified", install_source := "sideload",
    installed_at := "T", updated_at := "T",
    entry_path := "/base/com.acme.hi/1.0.0/main.js",
    entry_source := some "X", crash_count := 0,
    network_allowlist := ["api.example.com"], manifest := egManifestOk,
    granted_permissions :=
      [{ permission := "network:https", granted := false, granted_at := none }] }

/-! ## Lemmas and claim theorems -/

set_option maxRecDepth 1000000 in
/-- The embedded SHA-256 agrees with the FIPS 180-4 test vectors for
the empty message and for "abc", so it computes the same function as
the sha2 crate used by compute_sha256_hex. -/
theorem compute_sha256_hex_vectors :
    compute_sha256_hex [] =
      "e3b0c44298fc1c149afbf4c8996fb92427ae41e4649b934ca495991b7852b855" ∧
    compute_sha256_hex [97, 98, 99] =
      "ba7816bf8f01cfea414140de5dae2223b00361a396177a9cb410ff61f20015ad" :=
  ⟨rfl, rfl⟩

theorem LawfulCmp.refl {α : Type} {cmp : α → α → Ordering} (h : LawfulCmp cmp)
    (a : α) : cmp a a = .eq := by
  have hs := h.symm a a
  cases hh : cmp a a <;> rw [hh] at hs <;> simp [Ordering.swap] at hs

theorem LawfulCmp.eq_iff {α : Type} {cmp : α → α → Ordering} (h : LawfulCmp cmp)
    {a b : α} : cmp a b = .eq ↔ a = b := by
  constructor
  · exact h.eq_imp
  · rintro rfl; exact h.refl a

theorem LawfulCmp.gt_iff {α : Type} {cmp : α → α → Ordering} (h : LawfulCmp cmp)
    {a b : α} : cmp a b = .gt ↔ cmp b a = .lt := by
  have hs := h.symm a b
  cases hh : cmp b a <;> rw [hh] at hs <;> simp [Ordering.swap] at hs <;> simp [hs]

theorem LawfulCmp.le_total {α : Type} {cmp : α → α → Ordering} (h : LawfulCmp cmp)
    (a b : α) : cmpLe cmp a b = true ∨ cmpLe cmp b a = true := by
  by_cases hab : cmp a b = .gt
  · right
    have := h.gt_iff.mp hab
    simp [cmpLe, this]
  · left; simp [cmpLe, hab]

theorem LawfulCmp.le_trans {α : Type} {cmp : α → α → Ordering} (h : LawfulCmp cmp)
    {a b c : α} (hab : cmpLe cmp a b = true) (hbc : cmpLe cmp b c = true) :
    cmpLe cmp a c = true := by
  simp only [cmpLe, ne_eq, decide_eq_true_eq] at hab hbc ⊢
  cases h1 : cmp a b with
  | eq => exact (h.eq_imp h1 ▸ hbc)
  | gt => exact absurd h1 hab
  | lt =>
    cases h2 : cmp b c with
    | eq => rw [← h.eq_imp h2]; simp [h1]
    | gt => exact absurd h2 hbc
    | lt => simp [h.lt_trans h1 h2]

theorem cmpNat_lawful : LawfulCmp cmpNat := by
  refine ⟨?_, ?_, ?_⟩
  · intro a b
    unfold cmpNat
    rcases Nat.lt_trichotomy a b with h | h | h
    · simp [h, Nat.not_lt.mpr (Nat.le_of_lt h), Ordering.swap]
    · simp [h, Ordering.swap]
    · simp [h, Nat.not_lt.mpr (Nat.le_of_lt h), Ordering.swap]
  · intro a b c hab hbc
    unfold cmpNat at *
    split at hab
    · split at hbc
      · simp [Nat.lt_trans ‹a < b› ‹b < c›]
      · split at hbc <;> simp_all
    · split at hab <;> simp_all
  · intro a b hab
    unfold cmpNat at hab
    split at hab
    · simp_all
    · split at hab
      · simp_all
      · omega

theorem cmpChar_lawful : LawfulCmp cmpChar := by
  refine ⟨?_, ?_, ?_⟩
  · intro a b; exact cmpNat_lawful.symm _ _
  · intro a b c hab hbc; exact cmpNat_lawful.lt_trans hab hbc
  · intro a b hab
    exact Char.eq_of_val_eq (UInt32.ext (cmpNat_lawful.eq_imp hab))

theorem cmpLexList_symm {α : Type} {cmp : α → α → Ordering} (h : LawfulCmp cmp) :
    ∀ (a b : List α), cmpLexList cmp a b = (cmpLexList cmp b a).swap
  | [], [] => by simp [cmpLexList, Ordering.swap]
  | [], _ :: _ => by simp [cmpLexList, Ordering.swap]
  | _ :: _, [] => by simp [cmpLexList, Ordering.swap]
  | a :: as, b :: bs => by
    simp only [cmpLexList, Ordering.swap_then]
    rw [← h.symm a b, ← cmpLexList_symm h as bs]

theorem cmpLexList_lt_trans {α : Type} {cmp : α → α → Ordering} (h : LawfulCmp cmp) :
    ∀ (a b c : List α), cmpLexList cmp a b = .lt → cmpLexList cmp b c = .lt →
      cmpLexList cmp a c = .lt
  | a, [], c, hab, hbc => by cases a <;> simp_all [cmpLexList]
  | [], _ :: _, [], hab, hbc => by simp_all [cmpLexList]
  | [], _ :: _, _ :: _, hab, hbc => by simp [cmpLexList]
  | _ :: _, _ :: _, [], hab, hbc => by simp [cmpLexList] at hbc
  | x :: xs, y :: ys, z :: zs, hab, hbc => by
    simp only [cmpLexList] at hab hbc ⊢
    cases h1 : cmp x y with
    | gt => rw [h1] at hab; simp [Ordering.then] at hab
    | eq =>
      rw [h1] at hab; simp [Ordering.then] at hab
      have hxy := h.eq_imp h1
      subst hxy
      cases h2 : cmp x z with
      | lt => simp [Ordering.then]
      | eq =>
        simp only [Ordering.then]
        rw [h2] at hbc; simp [Ordering.then] at hbc
        exact cmpLexList_lt_trans h xs ys zs hab hbc
      | gt => rw [h2] at hbc; simp [Ordering.then] at hbc
    | lt =>
      rw [h1] at hab
      cases h2 : cmp y z with
      | lt => simp [h.lt_trans h1 h2, Ordering.then]
      | eq =>
        have hyz := h.eq_imp h2
        subst hyz
        simp [h1, Ordering.then]
      | gt => rw [h2] at hbc; simp [Ordering.then] at hbc

theorem cmpLexList_eq_imp {α : Type} {cmp : α → α → Ordering} (h : LawfulCmp cmp) :
    ∀ (a b : List α), cmpLexList cmp a b = .eq → a = b
  | [], [], _ => rfl
  | [], _ :: _, hab => by simp [cmpLexList] at hab
  | _ :: _, [], hab => by simp [cmpLexList] at hab
  | x :: xs, y :: ys, hab => by
    simp only [cmpLexList] at hab
    cases h1 : cmp x y <;> rw [h1] at hab <;> simp [Ordering.then] at hab
    rw [h.eq_imp h1, cmpLexList_eq_imp h xs ys hab]

theorem cmpLexList_lawful {α : Type} {cmp : α → α → Ordering} (h : LawfulCmp cmp) :
    LawfulCmp (cmpLexList cmp) :=
  ⟨cmpLexList_symm h, fun {a b c} => cmpLexList_lt_trans h a b c,
   fun {a b} => cmpLexList_eq_imp h a b⟩

theorem mem_insertSorted {α : Type} (le : α → α → Bool) (x : α) (l : List α)
    (a : α) : a ∈ insertSorted le x l ↔ a = x ∨ a ∈ l := by
  induction l with
  | nil => simp [insertSorted]
  | cons y ys ih =>
    simp only [insertSorted]
    split
    · simp only [List.mem_cons, ih]
      tauto
    · simp only [List.mem_cons]

theorem mem_sortStable {α : Type} (le : α → α → Bool) (l : List α) (a : α) :
    a ∈ sortStable le l ↔ a ∈ l := by
  suffices h : ∀ (rest acc : List α),
      a ∈ rest.foldl (fun acc x => insertSorted le x acc) acc ↔ a ∈ acc ∨ a ∈ rest by
    simpa using h l []
  intro rest
  induction rest with
  | nil => simp
  | cons x xs ih =>
    intro acc
    simp only [List.foldl_cons, ih, mem_insertSorted]
    simp; tauto

theorem pairwise_insertSorted {α : Type} {le : α → α → Bool} {x : α} {l : List α}
    (hl : l.Pairwise (fun a b => le a b = true))
    (htot : ∀ y ∈ l, le y x = true ∨ le x y = true)
    (htrans : ∀ a ∈ x :: l, ∀ b ∈ x :: l, ∀ c ∈ x :: l,
      le a b = true → le b c = true → le a c = true) :
    (insertSorted le x l).Pairwise (fun a b => le a b = true) := by
  induction l with
  | nil => simp [insertSorted]
  | cons y ys ih =>
    rcases List.pairwise_cons.mp hl with ⟨hy, hys⟩
    simp only [insertSorted]
    by_cases hcase : le y x = true
    · rw [if_pos hcase]
      refine List.pairwise_cons.mpr ⟨?_, ?_⟩
      · intro z hz
        rcases (mem_insertSorted le x ys z).mp hz with rfl | hz'
        · exact hcase
        · exact hy z hz'
      · refine ih hys (fun z hz => htot z (List.mem_cons_of_mem y hz)) ?_
        intro a ha b hb c hc
        have hw : ∀ t, t ∈ x :: ys → t ∈ x :: y :: ys := by
          intro t ht
          rcases List.mem_cons.mp ht with rfl | ht'
          · exact List.mem_cons_self _ _
          · exact List.mem_cons_of_mem _ (List.mem_cons_of_mem _ ht')
        exact htrans a (hw a ha) b (hw b hb) c (hw c hc)
    · rw [if_neg hcase]
      have hxy : le x y = true := by
        rcases htot y (List.mem_cons_self y ys) with h | h
        · exact absurd h hcase
        · exact h
      refine List.pairwise_cons.mpr ⟨?_, List.pairwise_cons.mpr ⟨hy, hys⟩⟩
      intro z hz
      rcases List.mem_cons.mp hz with rfl | hz'
      · exact hxy
      · exact htrans x (List.mem_cons_self _ _)
          y (List.mem_cons_of_mem _ (List.mem_cons_self _ _))
          z (List.mem_cons_of_mem _ (List.mem_cons_of_mem _ hz'))
          hxy (hy z hz')

theorem pairwise_sortStable {α : Type} {le : α → α → Bool} {l : List α}
    (htot : ∀ a ∈ l, ∀ b ∈ l, le a b = true ∨ le b a = true)
    (htrans : ∀ a ∈ l, ∀ b ∈ l, ∀ c ∈ l,
      le a b = true → le b c = true → le a c = true) :
    (sortStable le l).Pairwise (fun a b => le a b = true) := by
  suffices h : ∀ (rest acc : List α), (∀ a ∈ rest, a ∈ l) → (∀ a ∈ acc, a ∈ l) →
      acc.Pairwise (fun a b => le a b = true) →
      (rest.foldl (fun acc x => insertSorted le x acc) acc).Pairwise
        (fun a b => le a b = true) by
    exact h l [] (fun a ha => ha) (by simp) (by simp)
  intro rest
  induction rest with
  | nil => intro acc _ _ hpw; simpa using hpw
  | cons x xs ih =>
    intro acc hrest hacc hpw
    simp only [List.foldl_cons]
    have hx : x ∈ l := hrest x (List.mem_cons_self x xs)
    refine ih (insertSorted le x acc) (fun a ha => hrest a (List.mem_cons_of_mem x ha))
      ?_ ?_
    · intro a ha
      rcases (mem_insertSorted le x acc a).mp ha with rfl | ha'
      · exact hx
      · exact hacc a ha'
    · refine pairwise_insertSorted hpw (fun y hy => htot y (hacc y hy) x hx) ?_
      intro a ha b hb c hc
      have hm : ∀ t, t ∈ x :: acc → t ∈ l := by
        intro t ht
        rcases List.mem_cons.mp ht with rfl | ht'
        · exact hx
        · exact hacc t ht'
      exact htrans a (hm a ha) b (hm b hb) c (hm c hc)

theorem getLast?_mem_of_eq_some {α : Type} :
    ∀ (l : List α) (e : α), l.getLast? = some e → e ∈ l
  | [], _, he => by simp at he
  | [x], e, he => by simp_all
  | _ :: y :: ys, e, he => by
    rw [List.getLast?_cons_cons] at he
    exact List.mem_cons_of_mem _ (getLast?_mem_of_eq_some (y :: ys) e he)

theorem pairwise_getLast?_max {α : Type} {R : α → α → Prop} :
    ∀ (l : List α), l.Pairwise R → (∀ a ∈ l, R a a) →
      ∀ e, l.getLast? = some e → ∀ a ∈ l, R a e
  | [], _, _, e, he => by simp at he
  | [x], _, hrefl, e, he => by
    simp only [List.getLast?_singleton, Option.some.injEq] at he
    subst he
    intro a ha
    simp only [List.mem_singleton] at ha
    subst ha
    exact hrefl a (List.mem_singleton.mpr rfl)
  | x :: y :: ys, hpw, hrefl, e, he => by
    rw [List.getLast?_cons_cons] at he
    rcases List.pairwise_cons.mp hpw with ⟨hx, htail⟩
    have htailmax := pairwise_getLast?_max (y :: ys) htail
      (fun a ha => hrefl a (List.mem_cons_of_mem x ha)) e he
    have hemem : e ∈ y :: ys := getLast?_mem_of_eq_some (y :: ys) e he
    intro a ha
    rcases List.mem_cons.mp ha with rfl | ha'
    · exact hx e hemem
    · exact htailmax a ha'

theorem stripLead_eq_some :
    ∀ (p s r : List Char), stripLead p s = some r ↔ s = p ++ r
  | [], s, r => by simp [stripLead]
  | _ :: _, [], r => by simp [stripLead]
  | p :: ps, c :: cs, r => by
    simp only [stripLead, List.cons_append, List.cons.injEq]
    split
    · rw [stripLead_eq_some ps cs r]
      subst ‹p = c›
      simp
    · simp
      intro h
      exact absurd h.symm ‹¬p = c›

theorem checkAll_ok {α : Type} {f : α → Except String Unit} :
    ∀ {l : List α}, checkAll f l = .ok () → ∀ a ∈ l, f a = .ok ()
  | [], _, a, ha => by simp at ha
  | x :: xs, h, a, ha => by
    simp only [checkAll] at h
    cases hf : f x with
    | error e =>
      rw [hf] at h
      exact absurd h (by simp)
    | ok u =>
      cases u
      rw [hf] at h
      rcases List.mem_cons.mp ha with rfl | ha'
      · exact hf
      · exact checkAll_ok h a ha'

theorem prodCmp_lawful {α β : Type} {cA : α → α → Ordering} {cB : β → β → Ordering}
    (hA : LawfulCmp cA) (hB : LawfulCmp cB) : LawfulCmp (prodCmp cA cB) := by
  refine ⟨?_, ?_, ?_⟩
  · intro a b
    simp only [prodCmp, Ordering.swap_then]
    rw [← hA.symm, ← hB.symm]
  · intro a b c hab hbc
    simp only [prodCmp] at hab hbc ⊢
    cases h1 : cA a.1 b.1 <;> rw [h1] at hab
    · cases h2 : cA b.1 c.1 <;> rw [h2] at hbc
      · simp [hA.lt_trans h1 h2, Ordering.then]
      · rw [← hA.eq_imp h2, h1]
        simp [Ordering.then]
      · simp [Ordering.then] at hbc
    · simp only [Ordering.then] at hab
      rw [hA.eq_imp h1]
      cases h2 : cA b.1 c.1 <;> rw [h2] at hbc
      · simp [Ordering.then]
      · simp only [Ordering.then] at hbc ⊢
        exact hB.lt_trans hab hbc
      · simp [Ordering.then] at hbc
    · simp [Ordering.then] at hab
  · intro a b hab
    simp only [prodCmp] at hab
    cases h1 : cA a.1 b.1 <;> rw [h1] at hab <;> simp [Ordering.then] at hab
    have h2 := hA.eq_imp h1
    have h3 := hB.eq_imp hab
    exact Prod.ext h2 h3

theorem pullbackCmp_lawful {α β : Type} {c : β → β → Ordering} (h : LawfulCmp c)
    (f : α → β) (hf : ∀ a b, f a = f b → a = b) :
    LawfulCmp (fun a b => c (f a) (f b)) := by
  refine ⟨?_, ?_, ?_⟩
  · intro a b; exact h.symm (f a) (f b)
  · intro a b c hab hbc; exact h.lt_trans hab hbc
  · intro a b hab; exact hf a b (h.eq_imp hab)

theorem stripZeros_structure (a : List Char) :
    a = List.replicate (a.length - (stripZeros a).length) '0' ++ stripZeros a := by
  have hsplit := List.takeWhile_append_dropWhile (fun c => decide (c = '0')) a
  have htake : a.takeWhile (fun c => decide (c = '0')) =
      List.replicate (a.takeWhile (fun c => decide (c = '0'))).length '0' :=
    List.eq_replicate_of_mem (fun b hb => by
      have := List.mem_takeWhile_imp hb
      simpa using this)
  have hlen : a.length =
      (a.takeWhile (fun c => decide (c = '0'))).length + (stripZeros a).length := by
    conv_lhs => rw [← hsplit]
    rw [List.length_append]
    rfl
  have : a.length - (stripZeros a).length =
      (a.takeWhile (fun c => decide (c = '0'))).length := by omega
  rw [this, ← htake]
  conv_lhs => rw [← hsplit]
  rfl

theorem stripZeros_inj {a b : List Char} (hz : stripZeros a = stripZeros b)
    (hl : a.length = b.length) : a = b := by
  have ha := stripZeros_structure a
  have hb := stripZeros_structure b
  rw [ha, hb, hz, hl]

theorem cmpIdentPre_lawful : LawfulCmp cmpIdentPre := by
  have hlex := cmpLexList_lawful cmpChar_lawful
  have hlen : LawfulCmp (fun a b : List Char =>
      (cmpNat a.length b.length).then (cmpLexList cmpChar a b)) := by
    have hp := prodCmp_lawful cmpNat_lawful hlex
    exact pullbackCmp_lawful hp (fun a => (a.length, a)) (fun a b hab => by
      simpa using congrArg Prod.snd hab)
  refine ⟨?_, ?_, ?_⟩
  · intro a b
    simp only [cmpIdentPre]
    cases hda : a.all Char.isDigit <;> cases hdb : b.all Char.isDigit <;>
      simp [Ordering.swap]
    · exact hlex.symm a b
    · exact hlen.symm a b
  · intro a b c hab hbc
    simp only [cmpIdentPre] at hab hbc ⊢
    cases hda : a.all Char.isDigit <;> cases hdb : b.all Char.isDigit <;>
      cases hdc : c.all Char.isDigit <;> rw [hda, hdb] at hab <;>
      rw [hdb, hdc] at hbc <;> simp_all
    · exact hlex.lt_trans hab hbc
    · exact hlen.lt_trans hab hbc
  · intro a b hab
    simp only [cmpIdentPre] at hab
    cases hda : a.all Char.isDigit <;> cases hdb : b.all Char.isDigit <;>
      rw [hda, hdb] at hab <;> simp_all
    · exact hlex.eq_imp hab
    · exact hlen.eq_imp hab

theorem cmpIdentBuild_lawful : LawfulCmp cmpIdentBuild := by
  have hlex := cmpLexList_lawful cmpChar_lawful
  have hnum : LawfulCmp (fun a b : List Char =>
      ((cmpNat (stripZeros a).length (stripZeros b).length).then
          (cmpLexList cmpChar (stripZeros a) (stripZeros b))).then
        (cmpNat a.length b.length)) := by
    have hp := prodCmp_lawful (prodCmp_lawful cmpNat_lawful hlex) cmpNat_lawful
    refine pullbackCmp_lawful hp
      (fun a => (((stripZeros a).length, stripZeros a), a.length)) ?_
    intro a b hab
    have h1 : stripZeros a = stripZeros b := by
      simpa using congrArg (fun p => p.1.2) hab
    have h2 : a.length = b.length := by
      simpa using congrArg (fun p => p.2) hab
    exact stripZeros_inj h1 h2
  refine ⟨?_, ?_, ?_⟩
  · intro a b
    simp only [cmpIdentBuild]
    cases hda : a.all Char.isDigit <;> cases hdb : b.all Char.isDigit <;>
      simp [Ordering.swap]
    · exact hlex.symm a b
    · exact hnum.symm a b
  · intro a b c hab hbc
    simp only [cmpIdentBuild] at hab hbc ⊢
    cases hda : a.all Char.isDigit <;> cases hdb : b.all Char.isDigit <;>
      cases hdc : c.all Char.isDigit <;> rw [hda, hdb] at hab <;>
      rw [hdb, hdc] at hbc <;> simp_all
    · exact hlex.lt_trans hab hbc
    · exact hnum.lt_trans hab hbc
  · intro a b hab
    simp only [cmpIdentBuild] at hab
    cases hda : a.all Char.isDigit <;> cases hdb : b.all Char.isDigit <;>
      rw [hda, hdb] at hab <;> simp_all
    · exact hlex.eq_imp hab
    · exact hnum.eq_imp hab

theorem cmpPre_lawful : LawfulCmp cmpPre := by
  have hlex := cmpLexList_lawful cmpIdentPre_lawful
  refine ⟨?_, ?_, ?_⟩
  · intro a b
    cases a <;> cases b <;> simp only [cmpPre, Ordering.swap]
    exact hlex.symm _ _
  · intro a b c hab hbc
    cases a <;> cases b <;> cases c <;> simp only [cmpPre] at hab hbc ⊢ <;>
      try simp_all
    exact hlex.lt_trans hab hbc
  · intro a b hab
    cases a <;> cases b <;> simp only [cmpPre] at hab <;> try simp_all
    exact List.cons.inj (hlex.eq_imp hab)

theorem cmpBuild_lawful : LawfulCmp cmpBuild :=
  cmpLexList_lawful cmpIdentBuild_lawful

theorem semverCmp_lawful : LawfulCmp semverCmp := by
  have hp := prodCmp_lawful cmpNat_lawful (prodCmp_lawful cmpNat_lawful
    (prodCmp_lawful cmpNat_lawful (prodCmp_lawful cmpPre_lawful cmpBuild_lawful)))
  have hpull := pullbackCmp_lawful hp
    (fun v : SemVer => (v.major, (v.minor, (v.patch, (v.pre, v.build))))) (by
      intro a b hab
      cases a; cases b
      simp only [Prod.mk.injEq] at hab
      simp [hab.1, hab.2.1, hab.2.2.1, hab.2.2.2.1, hab.2.2.2.2])
  exact ⟨fun a b => hpull.symm a b, fun {a b c} => hpull.lt_trans,
    fun {a b} => hpull.eq_imp⟩

/-- C9: `plugin_uninstall` called with a plugin id that is empty or
contains a character outside `[A-Za-z0-9._-]` returns the error
"Invalid plugin id" before reading the store (the effect trace is
empty: no store load, no directory removal, no store save). -/
theorem c9_uninstall_invalid_id (env : UninstallEnv) (plugin_id : String)
    (h : plugin_id = "" ∨ ∃ c ∈ plugin_id.toList,
      (is_ascii_alphanumeric c || c = '.' || c = '-' || c = '_') = false) :
    plugin_uninstall env plugin_id = (.error "Invalid plugin id", []) := by
  have hv : validate_plugin_id plugin_id = false := by
    rcases h with rfl | ⟨c, hc, hcp⟩
    · rfl
    · have hall : plugin_id.toList.all
          (fun c => is_ascii_alphanumeric c || c = '.' || c = '-' || c = '_')
            = false := by
        cases hall2 : plugin_id.toList.all
            (fun c => is_ascii_alphanumeric c || c = '.' || c = '-' || c = '_') with
        | false => rfl
        | true =>
          exact absurd (List.all_eq_true.mp hall2 c hc) (by simp [hcp])
      unfold validate_plugin_id
      rw [hall, Bool.and_false]
  unfold plugin_uninstall
  rw [hv]
  simp

/-- Witness for C9 at the concrete id "bad!id". -/
theorem c9_witness :
    ("bad!id" = "" ∨ ∃ c ∈ "bad!id".toList,
      (is_ascii_alphanumeric c || c = '.' || c = '-' || c = '_') = false) ∧
    plugin_uninstall egUninstallEnv "bad!id" = (.error "Invalid plugin id", []) :=
  ⟨by decide, c9_uninstall_invalid_id egUninstallEnv "bad!id" (by decide)⟩

/-- C10: `plugin_list_installed` succeeds whenever the store loads and
parses; hydration maps over the records, a disabled plugin gets
`entry_source = none`, and an unreadable entry file also yields
`entry_source = none` rather than an error. -/
theorem c10_list_hydration (env : ListEnv) (store : PluginStore)
    (h : env.load_store = .ok store) :
    (plugin_list_installed env).1 =
      .ok (store.installed_plugins.map (hydrate_entry_source env.read_file)) ∧
    (∀ p ∈ store.installed_plugins, p.enabled = false →
      (hydrate_entry_source env.read_file p).entry_source = none) ∧
    (∀ p ∈ store.installed_plugins, env.read_file p.entry_path = none →
      (hydrate_entry_source env.read_file p).entry_source = none) := by
  refine ⟨?_, ?_, ?_⟩
  · unfold plugin_list_installed
    rw [h]
  · intro p _ hp
    unfold hydrate_entry_source
    rw [hp]
    rfl
  · intro p _ hr
    unfold hydrate_entry_source
    by_cases hp : p.enabled
    · simp [hp, hr]
    · simp [hp]

/-- Witness for C10: the concrete two-plugin store (one enabled with
an unreadable entry file, one disabled) lists successfully with both
entry sources absent. -/
theorem c10_witness :
    (plugin_list_installed egListEnv).1 =
      .ok (egStoreTwo.installed_plugins.map
        (hydrate_entry_source egListEnv.read_file)) ∧
    (hydrate_entry_source egListEnv.read_file egPluginOff).entry_source = none ∧
    (hydrate_entry_source egListEnv.read_file egPlugin).entry_source = none :=
  ⟨(c10_list_hydration egListEnv egStoreTwo rfl).1,
   (c10_list_hydration egListEnv egStoreTwo rfl).2.1 egPluginOff
     (by simp [egStoreTwo]) rfl,
   (c10_list_hydration egListEnv egStoreTwo rfl).2.2 egPlugin
     (by simp [egStoreTwo]) rfl⟩

/-- C2: for every `plugin_host_call` on an installed, enabled plugin,
exactly one audit append happens, and it precedes every permission
check, allowlist check and dispatch effect (the trace starts with the
store load and the audit append, and no further audit append occurs);
if the append fails, the call returns that error with nothing
dispatched. -/
theorem c2_audit_first (env : HostEnv) (plugin_id operation : String)
    (payload : Json) (store : PluginStore) (plugin : InstalledPlugin)
    (hload : env.load_store = .ok store)
    (hfind : store.installed_plugins.find? (fun p => p.id == plugin_id) = some plugin)
    (henabled : plugin.enabled = true) :
    ∃ rest,
      (plugin_host_call env plugin_id operation payload).2 =
        Effect.loadStore :: Effect.auditAppend plugin_id operation payload :: rest ∧
      (∀ pid op pl, Effect.auditAppend pid op pl ∉ rest) ∧
      (∀ e, env.audit = .error e →
        (plugin_host_call env plugin_id operation payload).1 = .error e ∧
          rest = []) := by
  simp only [plugin_host_call, hload, hfind, henabled, Bool.not_true,
    Bool.false_eq_true, if_false]
  cases haud : env.audit with
  | error e =>
    refine ⟨[], rfl, by simp, ?_⟩
    intro e' he'
    injection he' with h
    subst h
    exact ⟨rfl, rfl⟩
  | ok u =>
    cases u
    repeat' split
    all_goals
      exact ⟨_, rfl, by simp, by intro e' he'; simp at he'⟩

/-- Witness for C2 at a concrete enabled plugin with a failing audit
append. -/
theorem c2_witness :
    ∃ rest,
      (plugin_host_call egHostEnvAuditFail "com.acme.hi" "network:get_json"
        egPayloadOk).2 =
        Effect.loadStore ::
          Effect.auditAppend "com.acme.hi" "network:get_json" egPayloadOk :: rest ∧
      (∀ pid op pl, Effect.auditAppend pid op pl ∉ rest) ∧
      (∀ e, egHostEnvAuditFail.audit = .error e →
        (plugin_host_call egHostEnvAuditFail "com.acme.hi" "network:get_json"
          egPayloadOk).1 = .error e ∧ rest = []) :=
  c2_audit_first egHostEnvAuditFail "com.acme.hi" "network:get_json" egPayloadOk
    egStore egPlugin rfl rfl rfl

/-- C1: for a network operation on an installed, enabled plugin with
the `network:https` permission, an outbound request happens only for
the payload's `url` string and only when the URL parses with scheme
exactly "https", a host is present, the allowlist is non-empty and the
host matches an allowlist entry ASCII-case-insensitively (the first
conjunct characterises `enforce_network_allowlist` by exactly those
conditions); when the conditions fail, the call returns an error and
performs no request. -/
theorem c1_allowlist_confinement (env : HostEnv) (plugin_id operation : String)
    (payload : Json) (store : PluginStore) (plugin : InstalledPlugin)
    (hload : env.load_store = .ok store)
    (hfind : store.installed_plugins.find? (fun p => p.id == plugin_id) = some plugin)
    (henabled : plugin.enabled = true)
    (hperm : has_permission plugin "network:https" = true)
    (hop : operation = "network:get_json" ∨ operation = "network:get_text") :
    (∀ url, enforce_network_allowlist env.parse_url plugin url = .ok () ↔
      ∃ parts host, env.parse_url url = .ok parts ∧ parts.scheme = "https" ∧
        parts.host = some host ∧ plugin.network_allowlist ≠ [] ∧
        ∃ a ∈ plugin.network_allowlist, eq_ignore_ascii_case a host = true) ∧
    (∀ u, Effect.httpGet u ∈ (plugin_host_call env plugin_id operation payload).2 →
      (payload.get "url").bind Json.as_str = some u ∧
        enforce_network_allowlist env.parse_url plugin u = .ok ()) ∧
    ((∀ url, (payload.get "url").bind Json.as_str = some url →
        enforce_network_allowlist env.parse_url plugin url ≠ .ok ()) →
      (∃ e, (plugin_host_call env plugin_id operation payload).1 = .error e) ∧
        ∀ u, Effect.httpGet u ∉ (plugin_host_call env plugin_id operation payload).2) := by
  refine ⟨?_, ?_, ?_⟩
  · intro url
    unfold enforce_network_allowlist
    cases hp : env.parse_url url with
    | error e => simp
    | ok parts =>
      by_cases hs : parts.scheme = "https"
      · simp only [hs, ne_eq, not_true_eq_false, if_false]
        cases hh : parts.host with
        | none => simp [hh]
        | some host =>
          by_cases hempty : plugin.network_allowlist.isEmpty
          · have h0 : plugin.network_allowlist = [] := by
              simpa [List.isEmpty_iff] using hempty
            simp [hempty, h0]
          · have hne : plugin.network_allowlist ≠ [] := by
              simpa [List.isEmpty_iff] using hempty
            cases hany : plugin.network_allowlist.any
                (fun allowed => eq_ignore_ascii_case allowed host) with
            | false =>
              simp only [hempty, if_false, hany, Bool.not_false, if_true,
                Bool.false_eq_true]
              constructor
              · intro hc; exact absurd hc (by simp)
              · rintro ⟨parts', host', hpp, hs', hh', hne', a, ha, heq⟩
                injection hpp with h1
                subst h1
                rw [hh] at hh'
                injection hh' with h2
                subst h2
                have hx : plugin.network_allowlist.any
                    (fun allowed => eq_ignore_ascii_case allowed host) = true :=
                  List.any_eq_true.mpr ⟨a, ha, heq⟩
                rw [hany] at hx
                exact absurd hx (by simp)
            | true =>
              simp only [hempty, if_false, hany, Bool.not_true, Bool.false_eq_true]
              constructor
              · intro _
                rcases List.any_eq_true.mp hany with ⟨a, ha, heq⟩
                exact ⟨parts, host, rfl, hs, hh, hne, a, ha, heq⟩
              · intro _
                simp
      · simp only [ne_eq, hs, not_false_eq_true, if_true]
        constructor
        · intro hc; exact absurd hc (by simp)
        · rintro ⟨parts', host', hpp, hs', hh', hne', a, ha, heq⟩
          injection hpp with h1
          subst h1
          exact absurd hs' hs
  · simp only [plugin_host_call, hload, hfind, henabled, hperm, Bool.not_true,
      Bool.false_eq_true, if_false]
    cases haud : env.audit with
    | error e => intro u hu; simp at hu
    | ok v =>
      cases v
      rcases hop with rfl | rfl <;>
        simp only [reduceIte, hperm, Bool.not_true, Bool.false_eq_true, if_false] <;>
        · repeat' split
          all_goals intro u hu
          all_goals simp at hu
          all_goals subst hu
          all_goals exact ⟨by assumption, by assumption⟩
  · intro hfail
    simp only [plugin_host_call, hload, hfind, henabled, hperm, Bool.not_true,
      Bool.false_eq_true, if_false]
    cases haud : env.audit with
    | error e => exact ⟨⟨e, rfl⟩, by simp⟩
    | ok v =>
      cases v
      rcases hop with rfl | rfl <;>
        simp only [reduceIte, hperm, Bool.not_true, Bool.false_eq_true, if_false] <;>
        · cases hurl : (payload.get "url").bind Json.as_str with
          | none =>
            refine ⟨⟨"Payload must include string field \x27url\x27", ?_⟩, ?_⟩ <;> simp
          | some url =>
            cases henf : enforce_network_allowlist env.parse_url plugin url with
            | error e => refine ⟨⟨e, ?_⟩, ?_⟩ <;> simp [henf]
            | ok v2 =>
              cases v2
              exact absurd henf (hfail url hurl)

/-- Witness for C1: the concrete plugin (allowlist `api.example.com`)
calling `network:get_json` with `https://evil.com/x` gets an error and
no request is made. -/
theorem c1_witness :
    (∃ e, (plugin_host_call egHostEnv "com.acme.hi" "network:get_json"
      egPayloadEvil).1 = .error e) ∧
    ∀ u, Effect.httpGet u ∉
      (plugin_host_call egHostEnv "com.acme.hi" "network:get_json"
        egPayloadEvil).2 :=
  (c1_allowlist_confinement egHostEnv "com.acme.hi" "network:get_json"
    egPayloadEvil egStore egPlugin rfl rfl rfl rfl (Or.inl rfl)).2.2
    (fun url hurl => by
      have h0 : (egPayloadEvil.get "url").bind Json.as_str =
          some "https://evil.com/x" := rfl
      rw [h0] at hurl
      injection hurl with h1
      subst h1
      intro hc
      have h2 : enforce_network_allowlist egHostEnv.parse_url egPlugin
          "https://evil.com/x" =
          .error "Host \x27evil.com\x27 is not in plugin allowlist (api.example.com)" :=
        rfl
      rw [h2] at hc
      exact Except.noConfusion hc)

/-- C3 counterexample: the entry path "a..b" is non-empty, relative
and has no `..` path segment, yet rule 5 rejects it (the code tests
for `..` as a substring, mod.rs:418); shown both on the rule-5 check
and on the full validator at a manifest passing rules 1-4. -/
theorem c3_counterexample :
    check_entry "a..b" =
      .error "Plugin entry path must be a relative path within the archive" ∧
    validate_manifest egSemOk egManifestC3 =
      .error "Plugin entry path must be a relative path within the archive" ∧
    str_trim "a..b" ≠ "" ∧ path_is_absolute "a..b" = false ∧
    spec_has_dotdot_segment "a..b" = false :=
  ⟨rfl, rfl, by decide, rfl, by decide⟩

/-- C3 (amended): for a manifest passing rules 1-4, rule 5 rejects
exactly when the entry is empty after trim, is an absolute path, or
contains `..` as a substring anywhere (not only as a path segment);
and a rule-5 failure is the validator's verdict. -/
theorem c3_entry_rule (sem : SemverEnv) (m : PluginManifest)
    (h1 : m.schema_version = 1) (h2 : validate_plugin_id m.id = true)
    (h3 : str_trim m.name ≠ "") (h4 : ∃ v, semverParse m.version = some v) :
    (check_entry m.entry = .ok () ↔
      str_trim m.entry ≠ "" ∧ str_contains m.entry ".." = false ∧
        path_is_absolute m.entry = false) ∧
    (∀ e, check_entry m.entry = .error e → validate_manifest sem m = .error e) := by
  constructor
  · unfold check_entry
    by_cases ht : str_trim m.entry = ""
    · simp [ht]
    · simp only [ht, if_false]
      by_cases hc : str_contains m.entry ".." = true
      · simp [ht, hc]
      · have hc' : str_contains m.entry ".." = false := by
          simpa using hc
        by_cases ha : path_is_absolute m.entry = true
        · simp [ht, hc', ha]
        · have ha' : path_is_absolute m.entry = false := by
            simpa using ha
          simp [ht, hc', ha']
  · intro e he
    have hc1 : check_schema_version m = .ok () := by
      simp [check_schema_version, h1]
    have hc2 : check_id m = .ok () := by simp [check_id, h2]
    have hc3 : check_name m = .ok () := by simp [check_name, h3]
    have hc4 : check_version m = .ok () := by
      rcases h4 with ⟨v, hv⟩
      simp [check_version, hv]
    simp [validate_manifest, Bind.bind, Except.bind, hc1, hc2, hc3, hc4, he]

/-- Witness for C3 at the concrete valid manifest (entry "main.js"). -/
theorem c3_witness :
    (check_entry egManifestOk.entry = .ok () ↔
      str_trim egManifestOk.entry ≠ "" ∧ str_contains egManifestOk.entry ".." = false ∧
        path_is_absolute egManifestOk.entry = false) ∧
    (∀ e, check_entry egManifestOk.entry = .error e →
      validate_manifest egSemOk egManifestOk = .error e) :=
  c3_entry_rule egSemOk egManifestOk rfl rfl (by decide) ⟨⟨1, 0, 0, [], []⟩, rfl⟩

theorem except_bind_ok {α β : Type} {x : Except String α} {f : α → Except String β}
    {b : β} (h : x >>= f = .ok b) : ∃ a, x = .ok a ∧ f a = .ok b := by
  cases x with
  | error e => simp [Bind.bind, Except.bind] at h
  | ok a => exact ⟨a, rfl, by simpa [Bind.bind, Except.bind] using h⟩

theorem strip_lead_some {p s r : String} (h : strip_lead p s = some r) :
    s = p ++ r := by
  unfold strip_lead at h
  cases hs : stripLead p.toList s.toList with
  | none => rw [hs] at h; simp at h
  | some l =>
    rw [hs] at h
    have hr : List.asString l = r := by simpa using h
    apply String.ext
    show s.toList = (p ++ r).toList
    rw [(stripLead_eq_some p.toList s.toList l).mp hs, ← hr]
    rfl

theorem validate_ok_parts {sem : SemverEnv} {m : PluginManifest}
    (h : validate_manifest sem m = .ok ()) :
    checkAll check_activation_event_item m.activation_events = .ok () ∧
    checkAll (check_event_backref m) m.activation_events = .ok () := by
  unfold validate_manifest at h
  obtain ⟨_, _, h⟩ := except_bind_ok h
  obtain ⟨_, _, h⟩ := except_bind_ok h
  obtain ⟨_, _, h⟩ := except_bind_ok h
  obtain ⟨_, _, h⟩ := except_bind_ok h
  obtain ⟨_, _, h⟩ := except_bind_ok h
  obtain ⟨_, _, h⟩ := except_bind_ok h
  obtain ⟨_, _, h⟩ := except_bind_ok h
  obtain ⟨_, _, h⟩ := except_bind_ok h
  split at h
  · exact absurd h
      (by simp [Bind.bind, Except.bind, throw, throwThe, MonadExceptOf.throw])
  · obtain ⟨_, _, h⟩ := except_bind_ok h
    obtain ⟨_, hvalid, h⟩ := except_bind_ok h
    obtain ⟨_, _, h⟩ := except_bind_ok h
    obtain ⟨_, _, h⟩ := except_bind_ok h
    obtain ⟨_, _, h⟩ := except_bind_ok h
    obtain ⟨_, _, h⟩ := except_bind_ok h
    obtain ⟨_, _, h⟩ := except_bind_ok h
    obtain ⟨_, _, h⟩ := except_bind_ok h
    obtain ⟨_, _, h⟩ := except_bind_ok h
    obtain ⟨_, _, h⟩ := except_bind_ok h
    exact ⟨hvalid, h⟩

/-- C5: in a manifest accepted by `validate_manifest`, every
activation event other than `onStartup` references an existing
contribution of the corresponding kind (for `onTransform:<hook>`, a
transform with that hook exists). -/
theorem c5_activation_backrefs (sem : SemverEnv) (m : PluginManifest)
    (h : validate_manifest sem m = .ok ()) :
    ∀ event ∈ m.activation_events,
      event = "onStartup" ∨
      (∃ lid, event = "onCommand:" ++ lid ∧
        ∃ c ∈ m.contributes.commands, c.id = lid) ∨
      (∃ lid, event = "onExporter:" ++ lid ∧
        ∃ c ∈ m.contributes.exporters, c.id = lid) ∨
      (∃ lid, event = "onImporter:" ++ lid ∧
        ∃ c ∈ m.contributes.importers, c.id = lid) ∨
      (∃ lid, event = "onUIControl:" ++ lid ∧
        ∃ c ∈ m.contributes.ui_controls, c.id = lid) ∨
      (∃ lid, event = "onUIPanel:" ++ lid ∧
        ∃ c ∈ m.contributes.ui_panels, c.id = lid) ∨
      (∃ lid, event = "onStatusBadge:" ++ lid ∧
        ∃ c ∈ m.contributes.status_badges, c.id = lid) ∨
      (∃ lid, event = "onInlineAnnotations:" ++ lid ∧
        ∃ c ∈ m.contributes.inline_annotation_providers, c.id = lid) ∨
      (∃ hook, event = "onTransform:" ++ hook ∧
        ∃ t ∈ m.contributes.transforms, t.hook = hook) := by
  obtain ⟨hvalid, hback⟩ := validate_ok_parts h
  intro event hev
  have hvi : is_valid_activation_event event = true := by
    have hc := checkAll_ok hvalid event hev
    unfold check_activation_event_item at hc
    cases hvb : is_valid_activation_event event with
    | true => rfl
    | false => rw [hvb] at hc; simp at hc
  have hb := checkAll_ok hback event hev
  by_cases hstart : event = "onStartup"
  · exact Or.inl hstart
  · right
    unfold check_event_backref at hb
    rw [if_neg hstart] at hb
    unfold is_valid_activation_event at hvi
    rw [if_neg hstart] at hvi
    cases h1 : strip_lead "onCommand:" event with
    | some lid =>
      simp only [h1] at hb
      left
      refine ⟨lid, strip_lead_some h1, ?_⟩
      have hany : m.contributes.commands.any (fun item => item.id == lid)
          = true := by
        cases h2 : m.contributes.commands.any (fun item => item.id == lid) with
        | true => rfl
        | false => rw [h2] at hb; simp at hb
      rcases List.any_eq_true.mp hany with ⟨c, hm, hid⟩
      exact ⟨c, hm, by simpa using hid⟩
    | none =>
    simp only [h1] at hb hvi
    right
    cases h2 : strip_lead "onExporter:" event with
    | some lid =>
      simp only [h2] at hb
      left
      refine ⟨lid, strip_lead_some h2, ?_⟩
      have hany : m.contributes.exporters.any (fun item => item.id == lid)
          = true := by
        cases h3 : m.contributes.exporters.any (fun item => item.id == lid) with
        | true => rfl
        | false => rw [h3] at hb; simp at hb
      rcases List.any_eq_true.mp hany with ⟨c, hm, hid⟩
      exact ⟨c, hm, by simpa using hid⟩
    | none =>
    simp only [h2] at hb hvi
    right
    cases h3 : strip_lead "onImporter:" event with
    | some lid =>
      simp only [h3] at hb
      left
      refine ⟨lid, strip_lead_some h3, ?_⟩
      have hany : m.contributes.importers.any (fun item => item.id == lid)
          = true := by
        cases h4 : m.contributes.importers.any (fun item => item.id == lid) with
        | true => rfl
        | false => rw [h4] at hb; simp at hb
      rcases List.any_eq_true.mp hany with ⟨c, hm, hid⟩
      exact ⟨c, hm, by simpa using hid⟩
    | none =>
    simp only [h3] at hb hvi
    right
    cases h4 : strip_lead "onUIControl:" event with
    | some lid =>
      simp only [h4] at hb
      left
      refine ⟨lid, strip_lead_some h4, ?_⟩
      have hany : m.contributes.ui_controls.any (fun item => item.id == lid)
          = true := by
        cases h5 : m.contributes.ui_controls.any (fun item => item.id == lid) with
        | true => rfl
        | false => rw [h5] at hb; simp at hb
      rcases List.any_eq_true.mp hany with ⟨c, hm, hid⟩
      exact ⟨c, hm, by simpa using hid⟩
    | none =>
    simp only [h4] at hb hvi
    right
    cases h5 : strip_lead "onUIPanel:" event with
    | some lid =>
      simp only [h5] at hb
      left
      refine ⟨lid, strip_lead_some h5, ?_⟩
      have hany : m.contributes.ui_panels.any (fun item => item.id == lid)
          = true := by
        cases h6 : m.contributes.ui_panels.any (fun item => item.id == lid) with
        | true => rfl
        | false => rw [h6] at hb; simp at hb
      rcases List.any_eq_true.mp hany with ⟨c, hm, hid⟩
      exact ⟨c, hm, by simpa using hid⟩
    | none =>
    simp only [h5] at hb hvi
    right
    cases h6 : strip_lead "onStatusBadge:" event with
    | some lid =>
      simp only [h6] at hb
      left
      refine ⟨lid, strip_lead_some h6, ?_⟩
      have hany : m.contributes.status_badges.any (fun item => item.id == lid)
          = true := by
        cases h7 : m.contributes.status_badges.any (fun item => item.id == lid) with
        | true => rfl
        | false => rw [h7] at hb; simp at hb
      rcases List.any_eq_true.mp hany with ⟨c, hm, hid⟩
      exact ⟨c, hm, by simpa using hid⟩
    | none =>
    simp only [h6] at hb hvi
    right
    cases h7 : strip_lead "onInlineAnnotations:" event with
    | some lid =>
      simp only [h7] at hb
      left
      refine ⟨lid, strip_lead_some h7, ?_⟩
      have hany : m.contributes.inline_annotation_providers.any
          (fun item => item.id == lid) = true := by
        cases h8 : m.contributes.inline_annotation_providers.any
            (fun item => item.id == lid) with
        | true => rfl
        | false => rw [h8] at hb; simp at hb
      rcases List.any_eq_true.mp hany with ⟨c, hm, hid⟩
      exact ⟨c, hm, by simpa using hid⟩
    | none =>
    simp only [h7] at hb hvi
    right
    cases h8 : strip_lead "onTransform:" event with
    | some hook =>
      simp only [h8] at hb
      refine ⟨hook, strip_lead_some h8, ?_⟩
      have hany : m.contributes.transforms.any (fun item => item.hook == hook)
          = true := by
        cases h9 : m.contributes.transforms.any (fun item => item.hook == hook) with
        | true => rfl
        | false => rw [h9] at hb; simp at hb
      rcases List.any_eq_true.mp hany with ⟨t, hm, hid⟩
      exact ⟨t, hm, by simpa using hid⟩
    | none =>
      simp only [h8] at hvi
      exact absurd hvi (by simp)

/-- Witness for C5: the concrete manifest with a command, a UI panel
and a transform contribution referenced by its activation events. -/
theorem c5_witness :
    validate_manifest egSemOk egManifestFull = .ok () ∧
    ∀ event ∈ egManifestFull.activation_events,
      event = "onStartup" ∨
      (∃ lid, event = "onCommand:" ++ lid ∧
        ∃ c ∈ egManifestFull.contributes.commands, c.id = lid) ∨
      (∃ lid, event = "onExporter:" ++ lid ∧
        ∃ c ∈ egManifestFull.contributes.exporters, c.id = lid) ∨
      (∃ lid, event = "onImporter:" ++ lid ∧
        ∃ c ∈ egManifestFull.contributes.importers, c.id = lid) ∨
      (∃ lid, event = "onUIControl:" ++ lid ∧
        ∃ c ∈ egManifestFull.contributes.ui_controls, c.id = lid) ∨
      (∃ lid, event = "onUIPanel:" ++ lid ∧
        ∃ c ∈ egManifestFull.contributes.ui_panels, c.id = lid) ∨
      (∃ lid, event = "onStatusBadge:" ++ lid ∧
        ∃ c ∈ egManifestFull.contributes.status_badges, c.id = lid) ∨
      (∃ lid, event = "onInlineAnnotations:" ++ lid ∧
        ∃ c ∈ egManifestFull.contributes.inline_annotation_providers, c.id = lid) ∨
      (∃ hook, event = "onTransform:" ++ hook ∧
        ∃ t ∈ egManifestFull.contributes.transforms, t.hook = hook) :=
  ⟨rfl, c5_activation_backrefs egSemOk egManifestFull rfl⟩

theorem install_ok_spec (env : InstallEnv) (zip_bytes : List Nat)
    (install_source trust : String) (signature_verified : Bool)
    (plugin : InstalledPlugin)
    (h : (install_plugin_from_zip_bytes env zip_bytes install_source trust
      signature_verified).1 = .ok plugin) :
    ∃ manifest install_base entry_source store,
      env.read_manifest = .ok manifest ∧
      env.install_base = .ok install_base ∧
      env.read_entry = .ok entry_source ∧
      env.load_store = .ok store ∧
      plugin =
        { id := manifest.id, name := manifest.name, version := manifest.version,
          description := manifest.description, enabled := true, trust := trust,
          install_source := install_source, installed_at := env.now,
          updated_at := env.now,
          entry_path := install_base ++ "/" ++ sanitize_plugin_id manifest.id ++
            "/" ++ manifest.version ++ "/" ++ manifest.entry,
          entry_source := some entry_source, crash_count := 0,
          network_allowlist := manifest.network_allowlist, manifest := manifest,
          granted_permissions := normalize_grants manifest [] } ∧
      (install_plugin_from_zip_bytes env zip_bytes install_source trust
        signature_verified).2 =
        [Effect.removeDir (install_base ++ "/" ++ sanitize_plugin_id manifest.id),
         Effect.createDir (install_base ++ "/" ++ sanitize_plugin_id manifest.id ++
           "/" ++ manifest.version),
         Effect.extractTo (install_base ++ "/" ++ sanitize_plugin_id manifest.id ++
           "/" ++ manifest.version),
         Effect.loadStore,
         Effect.saveStore
           { installed_plugins :=
               store.installed_plugins.filter (fun p => p.id != manifest.id) ++
                 [plugin],
             lock_records :=
               store.lock_records.filter (fun r => r.plugin_id != manifest.id) ++
                 [{ plugin_id := manifest.id, version := manifest.version,
                    sha256 := compute_sha256_hex zip_bytes,
                    signature_verified := signature_verified, trust := trust,
                    enabled := true,
                    granted_permissions := plugin.granted_permissions,
                    updated_at := env.now }] }] := by
  unfold install_plugin_from_zip_bytes at h
  cases hz : env.zip_parse with
  | error e => rw [hz] at h; simp at h
  | ok uz =>
  cases uz
  rw [hz] at h
  simp only [] at h
  cases hm : env.read_manifest with
  | error e => rw [hm] at h; simp at h
  | ok manifest =>
  rw [hm] at h
  simp only [] at h
  cases hv : validate_manifest env.sem manifest with
  | error e => rw [hv] at h; simp at h
  | ok uv =>
  cases uv
  rw [hv] at h
  simp only [] at h
  cases hib : env.install_base with
  | error e => rw [hib] at h; simp at h
  | ok install_base =>
  rw [hib] at h
  simp only [] at h
  cases hrd : env.remove_dir with
  | error e => rw [hrd] at h; simp at h
  | ok urd =>
  cases urd
  rw [hrd] at h
  simp only [] at h
  cases hcd : env.create_dir with
  | error e => rw [hcd] at h; simp at h
  | ok ucd =>
  cases ucd
  rw [hcd] at h
  simp only [] at h
  cases hex : env.extract with
  | error e => rw [hex] at h; simp at h
  | ok uex =>
  cases uex
  rw [hex] at h
  simp only [] at h
  cases hee : env.entry_exists with
  | false => rw [hee] at h; simp at h
  | true =>
  rw [hee] at h
  simp only [Bool.not_true, Bool.false_eq_true, if_false] at h
  cases hre : env.read_entry with
  | error e => rw [hre] at h; simp at h
  | ok entry_source =>
  rw [hre] at h
  simp only [] at h
  cases hls : env.load_store with
  | error e => rw [hls] at h; simp at h
  | ok store =>
  rw [hls] at h
  simp only [] at h
  cases hss : env.save_store with
  | error e => rw [hss] at h; simp at h
  | ok uss =>
  cases uss
  rw [hss] at h
  simp only [] at h
  injection h with h2
  refine ⟨manifest, install_base, entry_source, store, rfl, rfl, rfl, rfl, ?_, ?_⟩
  · exact h2.symm
  · simp only [install_plugin_from_zip_bytes, hz, hm, hv, hib, hrd, hcd, hex,
      hee, hre, hls, hss, Bool.not_true, Bool.false_eq_true, if_false]
    rw [← h2]

theorem beq_and_bne_false {α : Type} [BEq α] (x y : α) :
    ((x == y) && (x != y)) = false := by
  cases hx : x == y <;> simp [bne, hx]

theorem core_install_one_per_id (env : InstallEnv) (zip_bytes : List Nat)
    (install_source trust : String) (signature_verified : Bool)
    (plugin : InstalledPlugin)
    (h : (install_plugin_from_zip_bytes env zip_bytes install_source trust
      signature_verified).1 = .ok plugin) :
    one_per_id_post (install_plugin_from_zip_bytes env zip_bytes install_source
      trust signature_verified).2 plugin zip_bytes := by
  obtain ⟨manifest, install_base, entry_source, store, hm, hib, hre, hls,
    hplugin, htrace⟩ :=
    install_ok_spec env zip_bytes install_source trust signature_verified plugin h
  have hpid : plugin.id = manifest.id := by rw [hplugin]
  have hpv : plugin.version = manifest.version := by rw [hplugin]
  have h1 : store.installed_plugins.filter
      (fun a => (a.id == manifest.id) && (a.id != manifest.id)) = [] :=
    List.filter_eq_nil_iff.mpr (fun a _ => by simp [beq_and_bne_false])
  have h2 : store.lock_records.filter
      (fun a => (a.plugin_id == manifest.id) && (a.plugin_id != manifest.id))
        = [] :=
    List.filter_eq_nil_iff.mpr (fun a _ => by simp [beq_and_bne_false])
  refine ⟨{ installed_plugins :=
              store.installed_plugins.filter (fun p => p.id != manifest.id) ++
                [plugin],
            lock_records :=
              store.lock_records.filter (fun r => r.plugin_id != manifest.id) ++
                [{ plugin_id := manifest.id, version := manifest.version,
                   sha256 := compute_sha256_hex zip_bytes,
                   signature_verified := signature_verified, trust := trust,
                   enabled := true,
                   granted_permissions := plugin.granted_permissions,
                   updated_at := env.now }] }, ?_, ?_, ?_, ?_⟩
  · rw [htrace]
    simp
  · rw [hpid, List.filter_append, List.filter_filter, h1]
    simp [hpid]
  · rw [hpid, List.filter_append, List.filter_filter, h2]
    simp
  · refine ⟨{ plugin_id := manifest.id, version := manifest.version,
              sha256 := compute_sha256_hex zip_bytes,
              signature_verified := signature_verified, trust := trust,
              enabled := true,
              granted_permissions := plugin.granted_permissions,
              updated_at := env.now }, ?_, rfl, hpv.symm⟩
    rw [hpid, List.filter_append, List.filter_filter, h2]
    simp

theorem registry_ok_spec (env : RegistryEnv) (registry_url plugin_id : String)
    (version : Option String) (plugin : InstalledPlugin)
    (h : (plugin_install_from_registry env registry_url plugin_id version).1 =
      .ok plugin) :
    ∃ entries selected zip_bytes,
      env.fetch = .ok entries ∧
      select_registry_entry entries plugin_id version = .ok selected ∧
      env.download = .ok zip_bytes ∧
      eq_ignore_ascii_case (compute_sha256_hex zip_bytes) selected.sha256 = true ∧
      (install_plugin_from_zip_bytes env.inst zip_bytes "registry" "verified"
        true).1 = .ok plugin ∧
      (plugin_install_from_registry env registry_url plugin_id version).2 =
        Effect.httpGet registry_url :: Effect.httpGet selected.download_url ::
          (install_plugin_from_zip_bytes env.inst zip_bytes "registry" "verified"
            true).2 := by
  unfold plugin_install_from_registry at h
  simp only [] at h
  cases hf : env.fetch with
  | error e => rw [hf] at h; simp at h
  | ok entries =>
  rw [hf] at h
  simp only [] at h
  cases hsel : select_registry_entry entries plugin_id version with
  | error e => rw [hsel] at h; simp at h
  | ok selected =>
  rw [hsel] at h
  simp only [] at h
  by_cases hid : selected.manifest.id ≠ selected.id
  · rw [if_pos hid] at h; simp at h
  · rw [if_neg hid] at h
    by_cases hver : selected.manifest.version ≠ selected.version
    · rw [if_pos hver] at h; simp at h
    · rw [if_neg hver] at h
      cases hval : validate_manifest env.inst.sem selected.manifest with
      | error e => rw [hval] at h; simp at h
      | ok uval =>
      cases uval
      rw [hval] at h
      simp only [] at h
      cases hsig : env.verify_signature with
      | error e => rw [hsig] at h; simp at h
      | ok usig =>
      cases usig
      rw [hsig] at h
      simp only [] at h
      cases hdl : env.download with
      | error e => rw [hdl] at h; simp at h
      | ok zip_bytes =>
      rw [hdl] at h
      simp only [] at h
      cases hsha : eq_ignore_ascii_case (compute_sha256_hex zip_bytes)
          selected.sha256 with
      | false => rw [hsha] at h; simp at h
      | true =>
      rw [hsha] at h
      simp only [Bool.not_true, Bool.false_eq_true, if_false] at h
      refine ⟨entries, selected, zip_bytes, rfl, hsel, rfl, hsha, h, ?_⟩
      simp only [plugin_install_from_registry, hf, hsel, if_neg hid, if_neg hver,
        hval, hsig, hdl, hsha, Bool.not_true, Bool.false_eq_true, if_false]

/-- C7: after any successful install - through the shared core
(`install_plugin_from_zip_bytes`), the sideload path
(`plugin_install_from_file`) or the registry path
(`plugin_install_from_registry`) - the saved store holds exactly one
installed record and exactly one lock record for that id, the lock
carrying the SHA-256 hex of the installed archive bytes (prior
records for the id are removed; see `one_per_id_post`). -/
theorem c7_one_per_id :
    (∀ (env : InstallEnv) (zip_bytes : List Nat) (install_source trust : String)
      (signature_verified : Bool) (plugin : InstalledPlugin),
      (install_plugin_from_zip_bytes env zip_bytes install_source trust
        signature_verified).1 = .ok plugin →
      one_per_id_post (install_plugin_from_zip_bytes env zip_bytes install_source
        trust signature_verified).2 plugin zip_bytes) ∧
    (∀ (env : InstallEnv) (path : String) (file_bytes : Except String (List Nat))
      (plugin : InstalledPlugin),
      (plugin_install_from_file env path file_bytes).1 = .ok plugin →
      ∃ zip_bytes, file_bytes = .ok zip_bytes ∧
        one_per_id_post (plugin_install_from_file env path file_bytes).2 plugin
          zip_bytes) ∧
    (∀ (env : RegistryEnv) (registry_url plugin_id : String)
      (version : Option String) (plugin : InstalledPlugin),
      (plugin_install_from_registry env registry_url plugin_id version).1 =
        .ok plugin →
      ∃ zip_bytes, env.download = .ok zip_bytes ∧
        one_per_id_post (plugin_install_from_registry env registry_url plugin_id
          version).2 plugin zip_bytes) := by
  refine ⟨fun env zb src tr sv plugin h =>
    core_install_one_per_id env zb src tr sv plugin h, ?_, ?_⟩
  · intro env path fb plugin h
    cases hfb : fb with
    | error e =>
      rw [hfb] at h
      simp [plugin_install_from_file] at h
    | ok zb =>
      subst hfb
      exact ⟨zb, rfl,
        core_install_one_per_id env zb "sideload" "unverified" false plugin h⟩
  · intro env url pid ver plugin h
    obtain ⟨entries, selected, zb, hf, hsel, hdl, hsha, hinner, htrace⟩ :=
      registry_ok_spec env url pid ver plugin h
    obtain ⟨S, hmem, hc1, hc2, lock, hl1, hl2, hl3⟩ :=
      core_install_one_per_id env.inst zb "registry" "verified" true plugin hinner
    refine ⟨zb, hdl, S, ?_, hc1, hc2, lock, hl1, hl2, hl3⟩
    rw [htrace]
    exact List.mem_cons_of_mem _ (List.mem_cons_of_mem _ hmem)

/-- Witness for C7 at the concrete sideload install environment. -/
theorem c7_witness :
    (install_plugin_from_zip_bytes egInstallEnv [] "sideload" "unverified"
      false).1 = .ok egInstalledOk ∧
    one_per_id_post (install_plugin_from_zip_bytes egInstallEnv [] "sideload"
      "unverified" false).2 egInstalledOk [] :=
  ⟨rfl, c7_one_per_id.1 egInstallEnv [] "sideload" "unverified" false
    egInstalledOk rfl⟩

/-- C4 counterexample: a successful concrete install writes an
installed record whose `entrySource` carries the entry file content
("X") into the persisted store, and install's returned record carries
it as well - contradicting "records written to the persisted store
never carry an entrySource value" and "populated only for
list-installed callers". -/
theorem c4_counterexample :
    ((install_plugin_from_zip_bytes egInstallEnv [] "sideload" "unverified"
      false).2.any (fun e =>
        match e with
        | .saveStore s =>
          s.installed_plugins.any (fun p => p.entry_source == some "X")
        | _ => false)) = true ∧
    ((install_plugin_from_zip_bytes egInstallEnv [] "sideload" "unverified"
      false).1.toOption.map (fun p => p.entry_source)) = some (some "X") :=
  ⟨rfl, rfl⟩

/-- C4 (amended): `hydrate_entry_source` (used by list-installed and
the enable/permission responses) leaves `entrySource` absent for a
disabled plugin and sets it to the entry file's read result for an
enabled one; however the record a successful install returns and
appends to the persisted store carries `entrySource = Some(entry
file content)`. -/
theorem c4_entry_source (read_file : String → Option String) :
    (∀ p : InstalledPlugin, p.enabled = false →
      (hydrate_entry_source read_file p).entry_source = none) ∧
    (∀ p : InstalledPlugin, p.enabled = true →
      (hydrate_entry_source read_file p).entry_source = read_file p.entry_path) ∧
    (∀ (env : InstallEnv) (zip_bytes : List Nat) (src tr : String) (sv : Bool)
      (plugin : InstalledPlugin),
      (install_plugin_from_zip_bytes env zip_bytes src tr sv).1 = .ok plugin →
      ∃ content store', env.read_entry = .ok content ∧
        plugin.entry_source = some content ∧
        Effect.saveStore store' ∈
          (install_plugin_from_zip_bytes env zip_bytes src tr sv).2 ∧
        plugin ∈ store'.installed_plugins) := by
  refine ⟨?_, ?_, ?_⟩
  · intro p hp
    unfold hydrate_entry_source
    rw [hp]
    rfl
  · intro p hp
    unfold hydrate_entry_source
    rw [hp]
    rfl
  · intro env zb src tr sv plugin h
    obtain ⟨manifest, install_base, es, store, hm, hib, hre, hls, hplugin,
      htrace⟩ := install_ok_spec env zb src tr sv plugin h
    refine ⟨es, { installed_plugins :=
                    store.installed_plugins.filter
                      (fun p => p.id != manifest.id) ++ [plugin],
                  lock_records :=
                    store.lock_records.filter
                      (fun r => r.plugin_id != manifest.id) ++
                      [{ plugin_id := manifest.id, version := manifest.version,
                         sha256 := compute_sha256_hex zb,
                         signature_verified := sv, trust := tr, enabled := true,
                         granted_permissions := plugin.granted_permissions,
                         updated_at := env.now }] },
      hre, by rw [hplugin], ?_, List.mem_append_right _ (List.mem_singleton.mpr rfl)⟩
    rw [htrace]
    simp

/-- Witness for C4 at the concrete install environment. -/
theorem c4_witness :
    ∃ content store', egInstallEnv.read_entry = .ok content ∧
      egInstalledOk.entry_source = some content ∧
      Effect.saveStore store' ∈ (install_plugin_from_zip_bytes egInstallEnv []
        "sideload" "unverified" false).2 ∧
      egInstalledOk ∈ store'.installed_plugins :=
  (c4_entry_source (fun _ => none)).2.2 egInstallEnv [] "sideload" "unverified"
    false egInstalledOk rfl

theorem install_saveStore_inv (env : InstallEnv) (zip_bytes : List Nat)
    (install_source trust : String) (signature_verified : Bool) (s : PluginStore)
    (h : Effect.saveStore s ∈ (install_plugin_from_zip_bytes env zip_bytes
      install_source trust signature_verified).2) :
    env.zip_parse = .ok () ∧
    (∃ m, env.read_manifest = .ok m ∧ validate_manifest env.sem m = .ok ()) ∧
    (∃ b, env.install_base = .ok b) ∧ env.remove_dir = .ok () ∧
    env.create_dir = .ok () ∧ env.extract = .ok () ∧ env.entry_exists = true ∧
    (∃ c, env.read_entry = .ok c) ∧ ∃ st, env.load_store = .ok st := by
  unfold install_plugin_from_zip_bytes at h
  cases hz : env.zip_parse with
  | error e => rw [hz] at h; simp at h
  | ok uz =>
  cases uz
  rw [hz] at h
  simp only [] at h
  cases hm : env.read_manifest with
  | error e => rw [hm] at h; simp at h
  | ok manifest =>
  rw [hm] at h
  simp only [] at h
  cases hv : validate_manifest env.sem manifest with
  | error e => rw [hv] at h; simp at h
  | ok uv =>
  cases uv
  rw [hv] at h
  simp only [] at h
  cases hib : env.install_base with
  | error e => rw [hib] at h; simp at h
  | ok install_base =>
  rw [hib] at h
  simp only [] at h
  cases hrd : env.remove_dir with
  | error e => rw [hrd] at h; simp at h
  | ok urd =>
  cases urd
  rw [hrd] at h
  simp only [] at h
  cases hcd : env.create_dir with
  | error e => rw [hcd] at h; simp at h
  | ok ucd =>
  cases ucd
  rw [hcd] at h
  simp only [] at h
  cases hex : env.extract with
  | error e => rw [hex] at h; simp at h
  | ok uex =>
  cases uex
  rw [hex] at h
  simp only [] at h
  cases hee : env.entry_exists with
  | false => rw [hee] at h; simp at h
  | true =>
  rw [hee] at h
  simp only [Bool.not_true, Bool.false_eq_true, if_false] at h
  cases hre : env.read_entry with
  | error e => rw [hre] at h; simp at h
  | ok entry_source =>
  rw [hre] at h
  simp only [] at h
  cases hls : env.load_store with
  | error e => rw [hls] at h; simp at h
  | ok store =>
  exact ⟨rfl, ⟨manifest, rfl, hv⟩, ⟨install_base, rfl⟩, rfl, rfl, rfl, rfl,
    ⟨entry_source, rfl⟩, ⟨store, rfl⟩⟩

/-- C8: a registry install whose downloaded archive hashes differently
from the registry entry's pinned sha256 (case-insensitively) fails
with a message carrying both hex strings and writes no store; more
generally a store write can only occur after every earlier step of the
pipeline (fetch, selection, cross-checks, validation, signature,
download, hash pin, archive parse, extraction, entry file, store load)
has succeeded, so every earlier failure leaves the persisted store
unmodified. -/
theorem c8_sha_mismatch_store_unchanged (env : RegistryEnv)
    (registry_url plugin_id : String) (version : Option String) :
    (∀ entries selected zip_bytes,
      env.fetch = .ok entries →
      select_registry_entry entries plugin_id version = .ok selected →
      selected.manifest.id = selected.id →
      selected.manifest.version = selected.version →
      validate_manifest env.inst.sem selected.manifest = .ok () →
      env.verify_signature = .ok () →
      env.download = .ok zip_bytes →
      eq_ignore_ascii_case (compute_sha256_hex zip_bytes) selected.sha256
        = false →
      (plugin_install_from_registry env registry_url plugin_id version).1 =
        .error ("SHA256 mismatch for downloaded plugin archive. Expected " ++
          selected.sha256 ++ ", got " ++ compute_sha256_hex zip_bytes) ∧
      ∀ s, Effect.saveStore s ∉
        (plugin_install_from_registry env registry_url plugin_id version).2) ∧
    (∀ s, Effect.saveStore s ∈
        (plugin_install_from_registry env registry_url plugin_id version).2 →
      ∃ entries selected zip_bytes,
        env.fetch = .ok entries ∧
        select_registry_entry entries plugin_id version = .ok selected ∧
        selected.manifest.id = selected.id ∧
        selected.manifest.version = selected.version ∧
        validate_manifest env.inst.sem selected.manifest = .ok () ∧
        env.verify_signature = .ok () ∧
        env.download = .ok zip_bytes ∧
        eq_ignore_ascii_case (compute_sha256_hex zip_bytes) selected.sha256
          = true ∧
        env.inst.zip_parse = .ok () ∧
        (∃ m, env.inst.read_manifest = .ok m ∧
          validate_manifest env.inst.sem m = .ok ()) ∧
        env.inst.extract = .ok () ∧ env.inst.entry_exists = true ∧
        (∃ c, env.inst.read_entry = .ok c) ∧
        ∃ st, env.inst.load_store = .ok st) := by
  constructor
  · intro entries selected zip_bytes hfetch hsel hid hver hval hsig hdl hsha
    have hid' : ¬selected.manifest.id ≠ selected.id := by simp [hid]
    have hver' : ¬selected.manifest.version ≠ selected.version := by simp [hver]
    simp only [plugin_install_from_registry, hfetch, hsel, if_neg hid',
      if_neg hver', hval, hsig, hdl, hsha, Bool.not_false, if_true]
    exact ⟨by simp, by simp⟩
  · intro s h
    unfold plugin_install_from_registry at h
    simp only [] at h
    cases hf : env.fetch with
    | error e => rw [hf] at h; simp at h
    | ok entries =>
    rw [hf] at h
    simp only [] at h
    cases hsel : select_registry_entry entries plugin_id version with
    | error e => rw [hsel] at h; simp at h
    | ok selected =>
    rw [hsel] at h
    simp only [] at h
    by_cases hid : selected.manifest.id ≠ selected.id
    · rw [if_pos hid] at h; simp at h
    · rw [if_neg hid] at h
      by_cases hver : selected.manifest.version ≠ selected.version
      · rw [if_pos hver] at h; simp at h
      · rw [if_neg hver] at h
        cases hval : validate_manifest env.inst.sem selected.manifest with
        | error e => rw [hval] at h; simp at h
        | ok uval =>
        cases uval
        rw [hval] at h
        simp only [] at h
        cases hsig : env.verify_signature with
        | error e => rw [hsig] at h; simp at h
        | ok usig =>
        cases usig
        rw [hsig] at h
        simp only [] at h
        cases hdl : env.download with
        | error e => rw [hdl] at h; simp at h
        | ok zip_bytes =>
        rw [hdl] at h
        simp only [] at h
        cases hsha : eq_ignore_ascii_case (compute_sha256_hex zip_bytes)
            selected.sha256 with
        | false => rw [hsha] at h; simp at h
        | true =>
        rw [hsha] at h
        simp only [Bool.not_true, Bool.false_eq_true, if_false] at h
        have hmem : Effect.saveStore s ∈ (install_plugin_from_zip_bytes env.inst
            zip_bytes "registry" "verified" true).2 := by
          simp only [List.mem_cons] at h
          rcases h with h | h | h
          · exact absurd h (by simp)
          · exact absurd h (by simp)
          · exact h
        obtain ⟨hz, hmval, hib, hrd, hcd, hex, hee, hre, hls⟩ :=
          install_saveStore_inv env.inst zip_bytes "registry" "verified" true
            s hmem
        refine ⟨entries, selected, zip_bytes, rfl, hsel, ?_, ?_, hval, rfl,
          rfl, hsha, hz, hmval, hex, hee, hre, hls⟩
        · simpa using hid
        · simpa using hver

set_option maxRecDepth 1000000 in
/-- Witness for C8: the concrete registry entry pins sha256 "aa" while
the downloaded (empty) archive hashes differently; the install fails
with both hex strings in the message and no store write occurs. -/
theorem c8_witness :
    (plugin_install_from_registry egRegistryEnv "https://reg" "com.acme.hi"
      none).1 =
      .error ("SHA256 mismatch for downloaded plugin archive. Expected " ++
        egRegEntry.sha256 ++ ", got " ++ compute_sha256_hex []) ∧
    ∀ s, Effect.saveStore s ∉
      (plugin_install_from_registry egRegistryEnv "https://reg" "com.acme.hi"
        none).2 :=
  (c8_sha_mismatch_store_unchanged egRegistryEnv "https://reg" "com.acme.hi"
    none).1 [egRegEntry] egRegEntry [] rfl rfl rfl rfl rfl rfl rfl rfl

/-- C6 counterexample: with registry entries for id "p" at versions
"2.0.0" (valid semver) and "zzz" (not semver), the no-version
selection returns the "zzz" entry - not the entry with the highest
valid semver - because the comparator falls back to lexicographic
comparison whenever either side fails to parse. -/
theorem c6_counterexample :
    select_registry_entry [egEntryA, egEntryZ] "p" none = .ok egEntryZ ∧
    semverParse egEntryZ.version = none ∧
    semverParse egEntryA.version = some ⟨2, 0, 0, [], []⟩ ∧
    egEntryZ.version ≠ egEntryA.version :=
  ⟨rfl, rfl, rfl, by decide⟩

/-- C6 (amended): selection errors exactly when no entry has the id;
with a requested version it returns the first exact id+version match
or errors; with no requested version it returns one of the id-matches
- the last element of a stable sort under a comparator that uses
semver precedence when both versions parse and byte-wise lexicographic
order otherwise - and when every match's version parses as semver the
returned entry is maximal in semver precedence (when some versions
fail to parse, the lexicographic fallback may select an entry whose
version is not the highest valid semver). -/
theorem c6_select_registry_entry (entries : List PluginRegistryEntry)
    (plugin_id : String) (version : Option String) :
    (entries.filter (fun e => e.id == plugin_id) = [] →
      select_registry_entry entries plugin_id version =
        .error ("Plugin \x27" ++ plugin_id ++ "\x27 not found in registry index")) ∧
    (∀ v, version = some v → entries.filter (fun e => e.id == plugin_id) ≠ [] →
      (∀ found, (entries.filter (fun e => e.id == plugin_id)).find?
          (fun e => e.version == v) = some found →
        select_registry_entry entries plugin_id version = .ok found) ∧
      ((entries.filter (fun e => e.id == plugin_id)).find?
          (fun e => e.version == v) = none →
        select_registry_entry entries plugin_id version =
          .error ("Plugin \x27" ++ plugin_id ++ "\x27 version \x27" ++ v ++
            "\x27 not found in registry index"))) ∧
    (∀ sel, version = none →
      select_registry_entry entries plugin_id version = .ok sel →
      sel ∈ entries.filter (fun e => e.id == plugin_id) ∧ sel.id = plugin_id ∧
      ((∀ e ∈ entries.filter (fun x => x.id == plugin_id),
          ∃ ve, semverParse e.version = some ve) →
        ∀ e ∈ entries.filter (fun x => x.id == plugin_id),
          ∀ ve vs, semverParse e.version = some ve →
            semverParse sel.version = some vs → semverCmp ve vs ≠ .gt)) := by
  refine ⟨?_, ?_, ?_⟩
  · intro hnil
    simp [select_registry_entry, hnil]
  · intro v hv hne
    subst hv
    constructor
    · intro found hfound
      unfold select_registry_entry
      rw [if_neg (by simpa [List.isEmpty_iff] using hne)]
      simp only []
      rw [hfound]
    · intro hnone
      unfold select_registry_entry
      rw [if_neg (by simpa [List.isEmpty_iff] using hne)]
      simp only []
      rw [hnone]
  · intro sel hv hsel
    subst hv
    unfold select_registry_entry at hsel
    by_cases hemp : (entries.filter (fun e => e.id == plugin_id)).isEmpty
    · rw [if_pos hemp] at hsel
      simp at hsel
    · rw [if_neg hemp] at hsel
      simp only [] at hsel
      cases hlast : (sortStable (cmpLe registry_version_cmp)
          (entries.filter (fun e => e.id == plugin_id))).getLast? with
      | none => rw [hlast] at hsel; simp at hsel
      | some entry =>
        rw [hlast] at hsel
        simp only [Except.ok.injEq] at hsel
        subst hsel
        have hmemsort : entry ∈ sortStable (cmpLe registry_version_cmp)
            (entries.filter (fun e => e.id == plugin_id)) :=
          getLast?_mem_of_eq_some _ _ hlast
        have hmem : entry ∈ entries.filter (fun e => e.id == plugin_id) :=
          (mem_sortStable _ _ _).mp hmemsort
        refine ⟨hmem, ?_, ?_⟩
        · have := (List.mem_filter.mp hmem).2
          exact beq_iff_eq.mp this
        · intro hall e he ve vs hve hvs
          have hcmp : ∀ a b : PluginRegistryEntry, ∀ va vb,
              semverParse a.version = some va → semverParse b.version = some vb →
              registry_version_cmp a b = semverCmp va vb := by
            intro a b va vb hva hvb
            unfold registry_version_cmp
            rw [hva, hvb]
          have hle : ∀ a b : PluginRegistryEntry, ∀ va vb,
              semverParse a.version = some va → semverParse b.version = some vb →
              cmpLe registry_version_cmp a b = cmpLe semverCmp va vb := by
            intro a b va vb hva hvb
            unfold cmpLe
            rw [hcmp a b va vb hva hvb]
          have htot : ∀ a ∈ entries.filter (fun e => e.id == plugin_id),
              ∀ b ∈ entries.filter (fun e => e.id == plugin_id),
              cmpLe registry_version_cmp a b = true ∨
                cmpLe registry_version_cmp b a = true := by
            intro a ha b hb
            obtain ⟨va, hva⟩ := hall a ha
            obtain ⟨vb, hvb⟩ := hall b hb
            rw [hle a b va vb hva hvb, hle b a vb va hvb hva]
            exact semverCmp_lawful.le_total va vb
          have htrans : ∀ a ∈ entries.filter (fun e => e.id == plugin_id),
              ∀ b ∈ entries.filter (fun e => e.id == plugin_id),
              ∀ c ∈ entries.filter (fun e => e.id == plugin_id),
              cmpLe registry_version_cmp a b = true →
              cmpLe registry_version_cmp b c = true →
              cmpLe registry_version_cmp a c = true := by
            intro a ha b hb c hc hab hbc
            obtain ⟨va, hva⟩ := hall a ha
            obtain ⟨vb, hvb⟩ := hall b hb
            obtain ⟨vc, hvc⟩ := hall c hc
            rw [hle a b va vb hva hvb] at hab
            rw [hle b c vb vc hvb hvc] at hbc
            rw [hle a c va vc hva hvc]
            exact semverCmp_lawful.le_trans hab hbc
          have hpw := pairwise_sortStable htot htrans
          have hrefl : ∀ a ∈ sortStable (cmpLe registry_version_cmp)
              (entries.filter (fun e => e.id == plugin_id)),
              cmpLe registry_version_cmp a a = true := by
            intro a ha
            obtain ⟨va, hva⟩ := hall a ((mem_sortStable _ _ _).mp ha)
            rw [hle a a va va hva hva]
            simp [cmpLe, semverCmp_lawful.refl va]
          have hmax := pairwise_getLast?_max _ hpw hrefl entry hlast e
            ((mem_sortStable _ _ _).mpr he)
          rw [hle e entry ve vs hve hvs] at hmax
          intro hgt
          rw [cmpLe, hgt] at hmax
          simp at hmax

/-- Witness for C6: with versions "2.0.0" and "10.0.0" (both valid
semver) the selection returns the "10.0.0" entry, which is maximal in
semver precedence among the matches. -/
theorem c6_witness :
    egEntryB10 ∈ [egEntryA, egEntryB10].filter (fun x => x.id == "p") ∧
    egEntryB10.id = "p" ∧
    ((∀ e ∈ [egEntryA, egEntryB10].filter (fun x => x.id == "p"),
        ∃ ve, semverParse e.version = some ve) →
      ∀ e ∈ [egEntryA, egEntryB10].filter (fun x => x.id == "p"),
        ∀ ve vs, semverParse e.version = some ve →
          semverParse egEntryB10.version = some vs → semverCmp ve vs ≠ .gt) :=
  (c6_select_registry_entry [egEntryA, egEntryB10] "p" none).2.2 egEntryB10
    rfl rfl
